import Mathlib

/-!
Shallow embedding of the Vision Wagon task/workflow orchestrator
(`vision_wagon/orchestrator.py`) and proofs about its scheduling,
retry, cancellation, dependency-gating and workflow-expansion logic.

Modelling conventions:
* The Python dicts (`registered_agents`, `pending_tasks_by_id`,
  `running_tasks`, `completed_tasks`, `failed_tasks`) all store the same
  shared mutable `Task` object.  We model that sharing with one object
  heap `tasks : List (Nat × Task)` (an association list keyed by task id)
  plus plain id sets for each dict; `uuid.uuid4()` is replaced by a
  fresh-id counter `next_id`, which preserves exactly the property the
  code relies on (ids never collide).
* `datetime.utcnow()` values are opaque `Nat` timestamps passed in as
  `now` parameters at each operation.
* `asyncio.PriorityQueue` is a min-heap over the inserted triples
  `(priority_value, created_at, task)`; `queue_pop` returns the entry
  with the least `(priority_value, created_at)` key, leftmost first.
  (With equal keys CPython would compare the `Task` objects and raise;
  no claim here exercises that corner.)
* The single event loop makes every stretch of code between two `await`s
  atomic.  The worker body is therefore split at its suspension points:
  `task_worker_step` models one loop iteration of `_task_worker` up to
  and including starting `_process_single_task` (the part before the
  `await agent.process(...)` call), and `process_task_result` models the
  remainder once the agent call returns / raises / times out.  The set
  `executing` records tasks currently inside an agent call.
* Logging, event emission (`_emit_event`), metrics, callbacks and the
  health-check loop only produce effects outside the scheduler state the
  claims talk about; they are not represented.
* Methods that can `raise` are modelled with `Except String`; the raised
  message text follows the source.
-/

namespace VisionWagon

/-- Opaque key/value context bag (`Dict[str, Any]` payloads). -/
abbrev Ctx := List (String × String)

/-- Association-list lookup, first binding wins (Python dict access). -/
def alist_find [DecidableEq κ] : List (κ × α) → κ → Option α
  | [], _ => none
  | (k2, v) :: rest, k => if k = k2 then some v else alist_find rest k

/-- Association-list store, overwriting an existing binding in place
(Python dict assignment `d[k] = v`). -/
def alist_set [DecidableEq κ] : List (κ × α) → κ → α → List (κ × α)
  | [], k, v => [(k, v)]
  | (k2, v2) :: rest, k, v =>
    if k = k2 then (k2, v) :: rest else (k2, v2) :: alist_set rest k v

/-- In-place mutation of the object stored under a key, if present
(models mutating a shared object found in a dict). -/
def alist_update [DecidableEq κ] : List (κ × α) → κ → (α → α) → List (κ × α)
  | [], _, _ => []
  | (k2, v) :: rest, k, f =>
    if k = k2 then (k2, f v) :: rest else (k2, v) :: alist_update rest k f

/-- Add a key to a set of dict keys (no duplicates). -/
def insert_key [DecidableEq α] (l : List α) (x : α) : List α :=
  if x ∈ l then l else x :: l

/-- Delete a key from a set of dict keys (Python `del d[k]`). -/
def erase_key [DecidableEq α] (l : List α) (x : α) : List α :=
  l.filter (fun y => y ≠ x)

/-- `TaskStatus` enum of the orchestrator. -/
inductive TaskStatus where
  | pending
  | running
  | completed
  | failed
  | cancelled
  | paused
deriving DecidableEq, Repr

/-- `TaskPriority` enum; the numeric `value` of each member is the one
assigned in the source (`LOW = 1 … CRITICAL = 4`). -/
inductive TaskPriority where
  | low
  | normal
  | high
  | critical
deriving DecidableEq, Repr

/-- Numeric `.value` of a `TaskPriority` member. -/
def TaskPriority.value : TaskPriority → Nat
  | .low => 1
  | .normal => 2
  | .high => 3
  | .critical => 4

/-- Result returned by an agent's `process` coroutine (`AgentResult`). -/
structure AgentResult where
  success : Bool
  data : Option Ctx := none
  error : Option String := none
deriving DecidableEq, Repr

/-- The `Task` dataclass.  The `callback : Optional[Callable]` field is
omitted: invoking it produces no change to orchestrator state. -/
structure Task where
  task_id : Nat
  task_type : String
  agent_id : String
  context : Ctx
  priority : TaskPriority := .normal
  status : TaskStatus := .pending
  created_at : Nat
  started_at : Option Nat := none
  completed_at : Option Nat := none
  result : Option AgentResult := none
  error : Option String := none
  retry_count : Nat := 0
  max_retries : Nat := 3
  timeout : Nat := 300
  dependencies : List Nat := []
  metadata : Ctx := []
deriving DecidableEq, Repr

/-- The `WorkflowStep` dataclass (its `condition` / `on_success` /
`on_failure` callables are never consulted by the orchestrator). -/
structure WorkflowStep where
  step_id : String
  agent_id : String
  task_type : String
  context : Ctx
  dependencies : List String := []
deriving DecidableEq, Repr

/-- The `Workflow` dataclass. -/
structure Workflow where
  workflow_id : Nat
  name : String
  description : String
  steps : List WorkflowStep
  status : TaskStatus := .pending
  created_at : Nat
  started_at : Option Nat := none
  completed_at : Option Nat := none
  context : Ctx := []
  metadata : Ctx := []
deriving DecidableEq, Repr

/-- An entry of the `asyncio.PriorityQueue`:
`(priority_value, created_at, task_id)` standing for the source triple
`(priority_value, task.created_at, task)`. -/
abbrev QEntry := Nat × Nat × Nat

/-- Remove and return the least entry of the priority queue, ordered by
`(priority_value, created_at)` lexicographically, smallest first — the
min-heap behaviour of `asyncio.PriorityQueue.get`. -/
def queue_pop : List QEntry → Option (QEntry × List QEntry)
  | [] => none
  | e :: es =>
    match queue_pop es with
    | none => some (e, es)
    | some (m, rest) =>
      if e.1 < m.1 ∨ (e.1 = m.1 ∧ e.2.1 ≤ m.2.1) then some (e, es)
      else some (m, e :: rest)

/-- The mutable state of the `Orchestrator` object.  The agent registry
keeps only the ids (agent objects/capabilities never influence the
scheduling logic); the task dicts are id sets over the shared `tasks`
heap; `executing` is the set of tasks currently suspended inside an
`await agent.process(...)` call. -/
structure Orchestrator where
  registered_agents : List String
  task_queue : List QEntry
  tasks : List (Nat × Task)
  pending_tasks_by_id : List Nat
  running_tasks : List Nat
  completed_tasks : List Nat
  failed_tasks : List Nat
  executing : List Nat
  workflows : List (Nat × Workflow)
  next_id : Nat
  task_timeout : Nat
  retry_delay : Nat
deriving DecidableEq, Repr

/-- Freshly constructed orchestrator (`__init__` with configuration
values `task_timeout` and `retry_delay`). -/
def Orchestrator.initial (task_timeout retry_delay : Nat) : Orchestrator :=
  { registered_agents := []
    task_queue := []
    tasks := []
    pending_tasks_by_id := []
    running_tasks := []
    completed_tasks := []
    failed_tasks := []
    executing := []
    workflows := []
    next_id := 0
    task_timeout := task_timeout
    retry_delay := retry_delay }

/-- `register_agent`: store the agent handle keyed by its id. -/
def register_agent (s : Orchestrator) (agent_id : String) : Orchestrator :=
  { s with registered_agents := insert_key s.registered_agents agent_id }

/-- `unregister_agent`: if the id is registered, run cleanup (whose
exceptions are caught) and delete the entry; otherwise the method body
is skipped entirely and the call returns without error. -/
def unregister_agent (s : Orchestrator) (agent_id : String) :
    Except String Orchestrator :=
  if agent_id ∈ s.registered_agents then
    .ok { s with registered_agents := erase_key s.registered_agents agent_id }
  else
    .ok s

/-- Python truthiness defaulting `x or d` applied to an optional numeric
argument: `None` and `0` are both falsy and are replaced by `d`. -/
def py_or (x : Option Nat) (d : Nat) : Nat :=
  match x with
  | none => d
  | some v => if v = 0 then d else v

/-- `_validate_task_dependencies`: every declared dependency id must be
found among completed, running or pending tasks, else `submit_task`
raises. -/
def validate_task_dependencies (s : Orchestrator) (deps : List Nat) : Prop :=
  ∀ d ∈ deps,
    d ∈ s.completed_tasks ∨ d ∈ s.running_tasks ∨ d ∈ s.pending_tasks_by_id

instance (s : Orchestrator) (deps : List Nat) :
    Decidable (validate_task_dependencies s deps) := by
  unfold validate_task_dependencies; infer_instance

/-- The `Task(...)` record construction inside `submit_task` (note the
`timeout or self.task_timeout` and `max_retries or 3` truthiness
defaulting, and `dependencies or []` / `metadata or {}`). -/
def built_task (s : Orchestrator) (task_type agent_id : String) (context : Ctx)
    (priority : TaskPriority) (timeout max_retries : Option Nat)
    (dependencies : Option (List Nat)) (metadata : Option Ctx) (now : Nat) :
    Task :=
  { task_id := s.next_id
    task_type := task_type
    agent_id := agent_id
    context := context
    priority := priority
    status := .pending
    created_at := now
    timeout := py_or timeout s.task_timeout
    max_retries := py_or max_retries 3
    dependencies := dependencies.getD []
    metadata := metadata.getD [] }

/-- `submit_task`: validate the agent id, build the `Task`, validate
dependencies, then push `(priority.value, task.created_at, task)` onto
the priority queue and index the task in `pending_tasks_by_id`.
Returns the fresh task id. -/
def submit_task (s : Orchestrator) (task_type agent_id : String) (context : Ctx)
    (priority : TaskPriority) (timeout max_retries : Option Nat)
    (dependencies : Option (List Nat)) (metadata : Option Ctx) (now : Nat) :
    Except String (Nat × Orchestrator) :=
  if agent_id ∈ s.registered_agents then
    let task : Task := built_task s task_type agent_id context priority timeout
      max_retries dependencies metadata now
    if validate_task_dependencies s task.dependencies then
      .ok (task.task_id,
        { s with
          task_queue :=
            s.task_queue ++ [(priority.value, task.created_at, task.task_id)]
          tasks := alist_set s.tasks task.task_id task
          pending_tasks_by_id := insert_key s.pending_tasks_by_id task.task_id
          next_id := s.next_id + 1 })
    else
      .error "Dependencia no encontrada o no en estado valido"
  else
    .error ("Agente no registrado: " ++ agent_id)

/-- State reached after a `submit_task` call, whether or not it raised
(a raising call leaves the orchestrator state untouched, since the
exception fires before any mutation). -/
def submit_state (s : Orchestrator) (task_type agent_id : String) (context : Ctx)
    (priority : TaskPriority) (timeout max_retries : Option Nat)
    (dependencies : Option (List Nat)) (metadata : Option Ctx) (now : Nat) :
    Orchestrator :=
  match submit_task s task_type agent_id context priority timeout max_retries
      dependencies metadata now with
  | .ok (_, s1) => s1
  | .error _ => s

/-- `_check_task_dependencies`: all declared dependencies are in
`completed_tasks`. -/
def check_task_dependencies (s : Orchestrator) (t : Task) : Prop :=
  ∀ d ∈ t.dependencies, d ∈ s.completed_tasks

instance (s : Orchestrator) (t : Task) :
    Decidable (check_task_dependencies s t) := by
  unfold check_task_dependencies; infer_instance

/-- One iteration of the `_task_worker` loop, up to the suspension point
inside the agent call: pop the least queue entry (an empty queue models
the `asyncio.TimeoutError` → `continue` path), drop the task from
`pending_tasks_by_id`, discard it if it was already cancelled (making
sure it is recorded in `failed_tasks`), re-enqueue it if some declared
dependency is not completed yet, and otherwise begin
`_process_single_task`: mark the task RUNNING, record `started_at`, add
it to `running_tasks` and enter the `await agent.process(...)` call
(membership in `executing`). -/
def task_worker_step (s : Orchestrator) (now : Nat) : Orchestrator :=
  match queue_pop s.task_queue with
  | none => s
  | some ((p, c, tid), rest) =>
    let s1 := { s with
      task_queue := rest
      pending_tasks_by_id := erase_key s.pending_tasks_by_id tid }
    match alist_find s1.tasks tid with
    | none => s1
    | some t =>
      if t.status = .cancelled then
        { s1 with failed_tasks := insert_key s1.failed_tasks tid }
      else if check_task_dependencies s1 t then
        let t1 := { t with status := .running, started_at := some now }
        { s1 with
          tasks := alist_set s1.tasks tid t1
          running_tasks := insert_key s1.running_tasks tid
          executing := insert_key s1.executing tid }
      else
        { s1 with
          task_queue := s1.task_queue ++ [(p, c, tid)]
          pending_tasks_by_id := insert_key s1.pending_tasks_by_id tid }

/-- `_handle_task_success`: unconditionally mark the task COMPLETED and
store it in `completed_tasks` (the task's cancellation status is never
re-examined here). -/
def handle_task_success (s : Orchestrator) (t : Task) : Orchestrator :=
  let t1 := { t with status := .completed }
  { s with
    tasks := alist_set s.tasks t.task_id t1
    completed_tasks := insert_key s.completed_tasks t.task_id }

/-- `_handle_task_failure`: bump `retry_count`; while it has not
exceeded `max_retries`, reset the task to PENDING, clear `started_at`,
sleep `retry_delay`, and re-enqueue under the original
`(priority.value, created_at)` key; otherwise mark it FAILED, stamp
`completed_at` and move it to `failed_tasks`. -/
def handle_task_failure (s : Orchestrator) (t : Task) (now : Nat) : Orchestrator :=
  let t1 := { t with retry_count := t.retry_count + 1 }
  if t1.retry_count ≤ t1.max_retries then
    let t2 := { t1 with status := .pending, started_at := none }
    { s with
      tasks := alist_set s.tasks t.task_id t2
      task_queue := s.task_queue ++ [(t.priority.value, t.created_at, t.task_id)]
      pending_tasks_by_id := insert_key s.pending_tasks_by_id t.task_id }
  else
    let t2 := { t1 with status := .failed, completed_at := some now }
    { s with
      tasks := alist_set s.tasks t.task_id t2
      failed_tasks := insert_key s.failed_tasks t.task_id }

/-- Outcome of the awaited `agent.process(...)` call: either it returned
an `AgentResult`, or it raised (`asyncio.TimeoutError` counts as a raise
carrying the timeout message). -/
inductive ExecOutcome where
  | result (r : AgentResult)
  | failure (msg : String)
deriving DecidableEq, Repr

/-- Remainder of `_process_single_task` once the agent call returns:
record `result`/`completed_at` on a returned result and dispatch on
`result.success`; on a raise, record the error text and go to the
failure handler; the `finally` clause removes the task from
`running_tasks`.  Only meaningful for a task inside an agent call
(`tid ∈ executing`). -/
def process_task_result (s : Orchestrator) (tid : Nat) (outcome : ExecOutcome)
    (now : Nat) : Orchestrator :=
  if tid ∈ s.executing then
    match alist_find s.tasks tid with
    | none => s
    | some t =>
      let s1 := { s with executing := erase_key s.executing tid }
      let s2 :=
        match outcome with
        | .result r =>
          let t1 := { t with result := some r, completed_at := some now }
          if r.success then handle_task_success s1 t1
          else handle_task_failure s1 { t1 with error := r.error } now
        | .failure msg =>
          handle_task_failure s1 { t with error := some msg } now
      { s2 with running_tasks := erase_key s2.running_tasks tid }
  else s

/-- `cancel_task`: a running task is marked CANCELLED, stamped, removed
from `running_tasks` and moved to `failed_tasks` (the coroutine inside
the agent call is not preempted — `executing` is untouched); a pending
task is marked CANCELLED and moved from `pending_tasks_by_id` to
`failed_tasks`, its stale queue entry remaining in the priority queue;
anything else returns `false`. -/
def cancel_task (s : Orchestrator) (tid : Nat) (now : Nat) : Bool × Orchestrator :=
  if tid ∈ s.running_tasks then
    let s1 := { s with
      tasks := alist_update s.tasks tid
        (fun t => { t with status := .cancelled, completed_at := some now }) }
    (true, { s1 with
      running_tasks := erase_key s1.running_tasks tid
      failed_tasks := insert_key s1.failed_tasks tid })
  else if tid ∈ s.pending_tasks_by_id then
    let s1 := { s with
      tasks := alist_update s.tasks tid
        (fun t => { t with status := .cancelled, completed_at := some now }) }
    (true, { s1 with
      pending_tasks_by_id := erase_key s1.pending_tasks_by_id tid
      failed_tasks := insert_key s1.failed_tasks tid })
  else
    (false, s)

/-- `get_task_status`: consult `running_tasks`, then `completed_tasks`,
then `failed_tasks`; a task found nowhere among those yields `None`.
(The source serialises the found task through `_task_to_dict`; the model
returns the task record itself.) -/
def get_task_status (s : Orchestrator) (tid : Nat) : Option Task :=
  if tid ∈ s.running_tasks then alist_find s.tasks tid
  else if tid ∈ s.completed_tasks then alist_find s.tasks tid
  else if tid ∈ s.failed_tasks then alist_find s.tasks tid
  else none

/-- `create_workflow`: store the step list as data under a fresh
workflow id; nothing is scheduled. -/
def create_workflow (s : Orchestrator) (name description : String)
    (steps : List WorkflowStep) (now : Nat) : Nat × Orchestrator :=
  let wf : Workflow :=
    { workflow_id := s.next_id
      name := name
      description := description
      steps := steps
      created_at := now }
  (s.next_id,
    { s with
      workflows := alist_set s.workflows s.next_id wf
      next_id := s.next_id + 1 })

/-- Python dict merge `{**a, **b}`: keys of `b` override those of `a`. -/
def ctx_merge (a b : Ctx) : Ctx :=
  a.filter (fun kv => !(b.map Prod.fst).contains kv.1) ++ b

/-- The step-submission loop of `execute_workflow`: for each step in
declaration order, merge the workflow context with the step context,
translate sibling-step dependency ids into the concrete task ids already
produced (`[step_tasks[dep] for dep in step.dependencies if dep in
step_tasks]`), and call `submit_task` with the default priority and the
workflow bookkeeping metadata. -/
def execute_steps (s : Orchestrator) (wf_context : Ctx) (wf_id : Nat)
    (execution_id : String) (step_tasks : List (String × Nat)) (now : Nat) :
    List WorkflowStep → Except String (Orchestrator × List (String × Nat))
  | [] => .ok (s, step_tasks)
  | step :: rest =>
    let step_context := ctx_merge wf_context step.context
    let deps := step.dependencies.filterMap (fun d => alist_find step_tasks d)
    match submit_task s step.task_type step.agent_id step_context .normal
        none none (some deps)
        (some [("workflow_id", toString wf_id),
               ("execution_id", execution_id),
               ("step_id", step.step_id)]) now with
    | .error e => .error e
    | .ok (tid, s1) =>
      execute_steps s1 wf_context wf_id execution_id
        (step_tasks ++ [(step.step_id, tid)]) now rest

/-- `execute_workflow`: look up the workflow (unknown id raises), mark
it RUNNING, install the caller context, build the execution id
`f"{workflow_id}_{timestamp}"`, and submit one task per step. -/
def execute_workflow (s : Orchestrator) (wf_id : Nat) (context : Option Ctx)
    (now : Nat) : Except String (String × Orchestrator) :=
  match alist_find s.workflows wf_id with
  | none => .error ("Workflow no encontrado: " ++ toString wf_id)
  | some wf =>
    let wf1 := { wf with
      status := .running
      started_at := some now
      context := context.getD [] }
    let s1 := { s with workflows := alist_set s.workflows wf_id wf1 }
    let execution_id := toString wf_id ++ "_" ++ toString now
    match execute_steps s1 wf1.context wf_id execution_id [] now wf1.steps with
    | .error e => .error e
    | .ok (s2, _) => .ok (execution_id, s2)

/-- State after an `execute_workflow` call that did not raise (a raising
call aborts mid-loop; no claim concerns the partially-submitted state it
leaves behind in the source). -/
def exec_workflow_state (s : Orchestrator) (wf_id : Nat) (context : Option Ctx)
    (now : Nat) : Orchestrator :=
  match execute_workflow s wf_id context now with
  | .ok (_, s1) => s1
  | .error _ => s

/-- `pause_workflow`: set a stored workflow's status to PAUSED. -/
def pause_workflow (s : Orchestrator) (wf_id : Nat) : Bool × Orchestrator :=
  match alist_find s.workflows wf_id with
  | none => (false, s)
  | some wf =>
    (true, { s with
      workflows := alist_set s.workflows wf_id { wf with status := .paused } })

/-- `resume_workflow`: set a PAUSED stored workflow back to RUNNING. -/
def resume_workflow (s : Orchestrator) (wf_id : Nat) : Bool × Orchestrator :=
  match alist_find s.workflows wf_id with
  | none => (false, s)
  | some wf =>
    if wf.status = .paused then
      (true, { s with
        workflows := alist_set s.workflows wf_id { wf with status := .running } })
    else
      (false, s)

/-- States of the orchestrator reachable through its public surface and
its worker/agent interleavings: any sequence of agent registrations and
unregistrations, task submissions, worker loop iterations, agent-call
completions (with adversarial outcomes), cancellations and workflow
operations, starting from a freshly constructed orchestrator. -/
inductive Reachable : Orchestrator → Prop where
  | init (task_timeout retry_delay : Nat) :
      Reachable (Orchestrator.initial task_timeout retry_delay)
  | register (s : Orchestrator) (agent_id : String) :
      Reachable s → Reachable (register_agent s agent_id)
  | unregister (s s1 : Orchestrator) (agent_id : String) :
      Reachable s → unregister_agent s agent_id = .ok s1 → Reachable s1
  | submit (s : Orchestrator) (task_type agent_id : String) (context : Ctx)
      (priority : TaskPriority) (timeout max_retries : Option Nat)
      (dependencies : Option (List Nat)) (metadata : Option Ctx) (now : Nat) :
      Reachable s →
      Reachable (submit_state s task_type agent_id context priority timeout
        max_retries dependencies metadata now)
  | worker (s : Orchestrator) (now : Nat) :
      Reachable s → Reachable (task_worker_step s now)
  | finish (s : Orchestrator) (tid : Nat) (outcome : ExecOutcome) (now : Nat) :
      Reachable s → Reachable (process_task_result s tid outcome now)
  | cancel (s : Orchestrator) (tid : Nat) (now : Nat) :
      Reachable s → Reachable (cancel_task s tid now).2
  | createWf (s : Orchestrator) (name description : String)
      (steps : List WorkflowStep) (now : Nat) :
      Reachable s → Reachable (create_workflow s name description steps now).2
  | execWf (s : Orchestrator) (wf_id : Nat) (context : Option Ctx) (now : Nat) :
      Reachable s → Reachable (exec_workflow_state s wf_id context now)
  | pauseWf (s : Orchestrator) (wf_id : Nat) :
      Reachable s → Reachable (pause_workflow s wf_id).2
  | resumeWf (s : Orchestrator) (wf_id : Nat) :
      Reachable s → Reachable (resume_workflow s wf_id).2

theorem mem_insert_key [DecidableEq α] {l : List α} {x a : α} :
    a ∈ insert_key l x ↔ a = x ∨ a ∈ l := by
  unfold insert_key
  split
  · constructor
    · exact fun h => Or.inr h
    · rintro (rfl | h) <;> assumption
  · simp [List.mem_cons]

theorem mem_erase_key [DecidableEq α] {l : List α} {x a : α} :
    a ∈ erase_key l x ↔ a ∈ l ∧ a ≠ x := by
  unfold erase_key
  simp [List.mem_filter]

theorem alist_find_set_self [DecidableEq κ] (l : List (κ × α)) (k : κ) (v : α) :
    alist_find (alist_set l k v) k = some v := by
  induction l with
  | nil => simp [alist_set, alist_find]
  | cons hd tl ih =>
    obtain ⟨k2, v2⟩ := hd
    by_cases h : k = k2
    · subst h; simp [alist_set, alist_find]
    · simp [alist_set, alist_find, h, ih]

theorem alist_find_set_ne [DecidableEq κ] (l : List (κ × α)) {k k2 : κ} (v : α)
    (h : k2 ≠ k) : alist_find (alist_set l k v) k2 = alist_find l k2 := by
  induction l with
  | nil => simp [alist_set, alist_find, h]
  | cons hd tl ih =>
    obtain ⟨k3, v3⟩ := hd
    by_cases hk : k = k3
    · subst hk; simp [alist_set, alist_find, h]
    · by_cases hk2 : k2 = k3
      · subst hk2; simp [alist_set, alist_find, hk]
      · simp [alist_set, alist_find, hk, hk2, ih]

theorem alist_find_set_cases [DecidableEq κ] {l : List (κ × α)} {k k2 : κ}
    {v t : α} (h : alist_find (alist_set l k v) k2 = some t) :
    (k2 = k ∧ t = v) ∨ (k2 ≠ k ∧ alist_find l k2 = some t) := by
  by_cases hk : k2 = k
  · subst hk
    rw [alist_find_set_self] at h
    exact Or.inl ⟨rfl, (Option.some_injective _ h).symm⟩
  · rw [alist_find_set_ne l v hk] at h
    exact Or.inr ⟨hk, h⟩

theorem alist_find_update_self [DecidableEq κ] (l : List (κ × α)) (k : κ)
    (f : α → α) :
    alist_find (alist_update l k f) k = (alist_find l k).map f := by
  induction l with
  | nil => simp [alist_update, alist_find]
  | cons hd tl ih =>
    obtain ⟨k2, v2⟩ := hd
    by_cases h : k = k2
    · subst h; simp [alist_update, alist_find]
    · simp [alist_update, alist_find, h, ih]

theorem alist_find_update_ne [DecidableEq κ] (l : List (κ × α)) {k k2 : κ}
    (f : α → α) (h : k2 ≠ k) :
    alist_find (alist_update l k f) k2 = alist_find l k2 := by
  induction l with
  | nil => simp [alist_update, alist_find]
  | cons hd tl ih =>
    obtain ⟨k3, v3⟩ := hd
    by_cases hk : k = k3
    · subst hk; simp [alist_update, alist_find, h]
    · by_cases hk2 : k2 = k3
      · subst hk2; simp [alist_update, alist_find, hk]
      · simp [alist_update, alist_find, hk, hk2, ih]

theorem alist_find_update_cases [DecidableEq κ] {l : List (κ × α)} {k k2 : κ}
    {f : α → α} {t : α} (h : alist_find (alist_update l k f) k2 = some t) :
    (k2 = k ∧ ∃ t0, alist_find l k = some t0 ∧ t = f t0) ∨
    (k2 ≠ k ∧ alist_find l k2 = some t) := by
  by_cases hk : k2 = k
  · subst hk
    rw [alist_find_update_self] at h
    match h0 : alist_find l k2 with
    | none => rw [h0] at h; simp at h
    | some t0 =>
      rw [h0] at h
      simp only [Option.map_some'] at h
      exact Or.inl ⟨rfl, t0, rfl, (Option.some_injective _ h).symm⟩
  · rw [alist_find_update_ne l f hk] at h
    exact Or.inr ⟨hk, h⟩

theorem queue_pop_perm {q : List QEntry} {e : QEntry} {rest : List QEntry}
    (h : queue_pop q = some (e, rest)) : q.Perm (e :: rest) := by
  induction q generalizing e rest with
  | nil => simp [queue_pop] at h
  | cons hd tl ih =>
    rw [queue_pop] at h
    match h0 : queue_pop tl with
    | none =>
      rw [h0] at h
      simp only [Option.some_inj, Prod.mk.injEq] at h
      obtain ⟨rfl, rfl⟩ := h
      exact List.Perm.refl _
    | some (m, rest0) =>
      rw [h0] at h
      have h2 : (if hd.1 < m.1 ∨ hd.1 = m.1 ∧ hd.2.1 ≤ m.2.1 then some (hd, tl)
          else some (m, hd :: rest0)) = some (e, rest) := h
      by_cases hc : hd.1 < m.1 ∨ hd.1 = m.1 ∧ hd.2.1 ≤ m.2.1
      · rw [if_pos hc] at h2
        simp only [Option.some_inj, Prod.mk.injEq] at h2
        obtain ⟨rfl, rfl⟩ := h2
        exact List.Perm.refl _
      · rw [if_neg hc] at h2
        simp only [Option.some_inj, Prod.mk.injEq] at h2
        obtain ⟨rfl, rfl⟩ := h2
        exact ((ih h0).cons hd).trans (List.Perm.swap _ hd rest0)

theorem queue_pop_mem {q : List QEntry} {e : QEntry} {rest : List QEntry}
    (h : queue_pop q = some (e, rest)) : e ∈ q :=
  (queue_pop_perm h).mem_iff.mpr (List.mem_cons_self e rest)

theorem queue_pop_mem_rest {q : List QEntry} {e e2 : QEntry}
    {rest : List QEntry} (h : queue_pop q = some (e, rest)) (h2 : e2 ∈ rest) :
    e2 ∈ q :=
  (queue_pop_perm h).mem_iff.mpr (List.mem_cons_of_mem e h2)

/-- Task id carried by a queue entry. -/
def QEntry.tid (e : QEntry) : Nat := e.2.2

/-- Structural invariant maintained by every orchestrator operation.
It records which dicts can hold a task in which status, that all ids
are below the freshness counter, and the two safety facts the spec
claims: dependency gating (`dep_inv`) and the retry bound
(`retry_inv`). -/
structure Inv (s : Orchestrator) : Prop where
  tasks_lt : ∀ k t, alist_find s.tasks k = some t → k < s.next_id
  queue_lt : ∀ e ∈ s.task_queue, e.tid < s.next_id
  pending_lt : ∀ k ∈ s.pending_tasks_by_id, k < s.next_id
  running_lt : ∀ k ∈ s.running_tasks, k < s.next_id
  completed_lt : ∀ k ∈ s.completed_tasks, k < s.next_id
  failed_lt : ∀ k ∈ s.failed_tasks, k < s.next_id
  executing_lt : ∀ k ∈ s.executing, k < s.next_id
  queue_nodup : (s.task_queue.map QEntry.tid).Nodup
  queue_status : ∀ e ∈ s.task_queue, ∃ t, alist_find s.tasks e.tid = some t ∧
      (t.status = .pending ∨ t.status = .cancelled)
  queue_executing : ∀ e ∈ s.task_queue, e.tid ∉ s.executing
  executing_status : ∀ k ∈ s.executing, ∃ t, alist_find s.tasks k = some t ∧
      (t.status = .running ∨ t.status = .cancelled)
  running_status : ∀ k ∈ s.running_tasks, ∃ t, alist_find s.tasks k = some t ∧
      t.status = .running
  pending_status : ∀ k ∈ s.pending_tasks_by_id, ∃ t,
      alist_find s.tasks k = some t ∧ t.status = .pending
  dep_inv : ∀ k t, alist_find s.tasks k = some t →
      (t.status = .running ∨ t.status = .completed ∨ t.status = .failed ∨
        k ∈ s.executing) →
      ∀ d ∈ t.dependencies, d ∈ s.completed_tasks
  retry_inv : ∀ k t, alist_find s.tasks k = some t → t.status ≠ .failed →
      t.retry_count ≤ t.max_retries
  tasks_key : ∀ k t, alist_find s.tasks k = some t → t.task_id = k
  completed_status : ∀ k ∈ s.completed_tasks, ∃ t,
      alist_find s.tasks k = some t ∧ t.status = .completed
  pending_failed_rc : ∀ k ∈ s.pending_tasks_by_id, k ∈ s.failed_tasks →
      ∀ t, alist_find s.tasks k = some t → 1 ≤ t.retry_count
  queue_failed_rc : ∀ e ∈ s.task_queue, e.tid ∈ s.failed_tasks →
      ∀ t, alist_find s.tasks e.tid = some t → t.status = .pending →
      1 ≤ t.retry_count

theorem inv_initial (task_timeout retry_delay : Nat) :
    Inv (Orchestrator.initial task_timeout retry_delay) := by
  constructor <;> simp [Orchestrator.initial, alist_find]

theorem inv_of_fields_eq {s s1 : Orchestrator} (hs : Inv s)
    (hq : s1.task_queue = s.task_queue) (ht : s1.tasks = s.tasks)
    (hp : s1.pending_tasks_by_id = s.pending_tasks_by_id)
    (hr : s1.running_tasks = s.running_tasks)
    (hc : s1.completed_tasks = s.completed_tasks)
    (hf : s1.failed_tasks = s.failed_tasks)
    (he : s1.executing = s.executing) (hn : s1.next_id = s.next_id) :
    Inv s1 := by
  obtain ⟨h1, h2, h3, h4, h5, h6, h7, h8, h9, h10, h11, h12, h13, h14, h15, h16, h17, h18, h19⟩ := hs
  constructor <;> simp only [hq, ht, hp, hr, hc, hf, he, hn] <;> assumption

theorem inv_register {s : Orchestrator} (hs : Inv s) (agent_id : String) :
    Inv (register_agent s agent_id) :=
  inv_of_fields_eq hs rfl rfl rfl rfl rfl rfl rfl rfl

theorem inv_unregister {s s1 : Orchestrator} (hs : Inv s) {agent_id : String}
    (h : unregister_agent s agent_id = .ok s1) : Inv s1 := by
  unfold unregister_agent at h
  split at h <;>
    · simp only [Except.ok.injEq] at h
      subst h
      exact inv_of_fields_eq hs rfl rfl rfl rfl rfl rfl rfl rfl

theorem inv_create_workflow {s : Orchestrator} (hs : Inv s)
    (name description : String) (steps : List WorkflowStep) (now : Nat) :
    Inv (create_workflow s name description steps now).2 := by
  obtain ⟨h1, h2, h3, h4, h5, h6, h7, h8, h9, h10, h11, h12, h13, h14, h15, h16, h17, h18, h19⟩ := hs
  refine ⟨?_, ?_, ?_, ?_, ?_, ?_, ?_, h8, h9, h10, h11, h12, h13, h14, h15, h16,
    h17, h18, h19⟩
  · exact fun k t hk => Nat.lt_succ_of_lt (h1 k t hk)
  · exact fun e he => Nat.lt_succ_of_lt (h2 e he)
  · exact fun k hk => Nat.lt_succ_of_lt (h3 k hk)
  · exact fun k hk => Nat.lt_succ_of_lt (h4 k hk)
  · exact fun k hk => Nat.lt_succ_of_lt (h5 k hk)
  · exact fun k hk => Nat.lt_succ_of_lt (h6 k hk)
  · exact fun k hk => Nat.lt_succ_of_lt (h7 k hk)

theorem inv_pause_workflow {s : Orchestrator} (hs : Inv s) (wf_id : Nat) :
    Inv (pause_workflow s wf_id).2 := by
  cases h0 : alist_find s.workflows wf_id with
  | none => simpa [pause_workflow, h0] using hs
  | some wf =>
    refine inv_of_fields_eq hs ?_ ?_ ?_ ?_ ?_ ?_ ?_ ?_ <;>
      simp [pause_workflow, h0]

theorem inv_resume_workflow {s : Orchestrator} (hs : Inv s) (wf_id : Nat) :
    Inv (resume_workflow s wf_id).2 := by
  cases h0 : alist_find s.workflows wf_id with
  | none => simpa [resume_workflow, h0] using hs
  | some wf =>
    by_cases h : wf.status = .paused
    · refine inv_of_fields_eq hs ?_ ?_ ?_ ?_ ?_ ?_ ?_ ?_ <;>
        simp [resume_workflow, h0, h]
    · simpa [resume_workflow, h0, h] using hs

theorem submit_ok {s s1 : Orchestrator} {task_type agent_id : String}
    {context : Ctx} {priority : TaskPriority} {timeout max_retries : Option Nat}
    {dependencies : Option (List Nat)} {metadata : Option Ctx} {now tid : Nat}
    (h : submit_task s task_type agent_id context priority timeout max_retries
      dependencies metadata now = .ok (tid, s1)) :
    tid = s.next_id ∧ agent_id ∈ s.registered_agents ∧
    validate_task_dependencies s (dependencies.getD []) ∧
    s1 = { s with
      task_queue := s.task_queue ++ [(priority.value, now, s.next_id)]
      tasks := alist_set s.tasks s.next_id (built_task s task_type agent_id
        context priority timeout max_retries dependencies metadata now)
      pending_tasks_by_id := insert_key s.pending_tasks_by_id s.next_id
      next_id := s.next_id + 1 } := by
  unfold submit_task at h
  by_cases hreg : agent_id ∈ s.registered_agents
  · rw [if_pos hreg] at h
    by_cases hval : validate_task_dependencies s
        (built_task s task_type agent_id context priority timeout max_retries
          dependencies metadata now).dependencies
    · rw [if_pos hval] at h
      simp only [Except.ok.injEq, Prod.mk.injEq] at h
      obtain ⟨htid, hs1⟩ := h
      refine ⟨htid.symm, hreg, ?_, hs1.symm⟩
      simpa [built_task] using hval
    · rw [if_neg hval] at h
      exact absurd h (by simp)
  · rw [if_neg hreg] at h
    exact absurd h (by simp)

theorem inv_submit {s s1 : Orchestrator} (hs : Inv s) {task_type agent_id : String}
    {context : Ctx} {priority : TaskPriority} {timeout max_retries : Option Nat}
    {dependencies : Option (List Nat)} {metadata : Option Ctx} {now tid : Nat}
    (h : submit_task s task_type agent_id context priority timeout max_retries
      dependencies metadata now = .ok (tid, s1)) : Inv s1 := by
  obtain ⟨h1, h2, h3, h4, h5, h6, h7, h8, h9, h10, h11, h12, h13, h14, h15, h16, h17, h18, h19⟩ := hs
  obtain ⟨rfl, hreg, hval, rfl⟩ := submit_ok h
  set n := s.next_id with hn
  set tk := built_task s task_type agent_id context priority timeout max_retries
    dependencies metadata now with htk
  have htk_status : tk.status = .pending := rfl
  have htk_id : tk.task_id = n := rfl
  have htk_rc : tk.retry_count = 0 := rfl
  have htk_deps : tk.dependencies = dependencies.getD [] := rfl
  constructor
  · intro k t hk
    rcases alist_find_set_cases hk with ⟨rfl, rfl⟩ | ⟨hne, hold⟩
    · exact Nat.lt_succ_self n
    · exact Nat.lt_succ_of_lt (h1 k t hold)
  · intro e he
    rcases List.mem_append.mp he with hold | hnew
    · exact Nat.lt_succ_of_lt (h2 e hold)
    · rw [List.mem_singleton.mp hnew]; exact Nat.lt_succ_self n
  · intro k hk
    rcases mem_insert_key.mp hk with rfl | hold
    · exact Nat.lt_succ_self n
    · exact Nat.lt_succ_of_lt (h3 k hold)
  · exact fun k hk => Nat.lt_succ_of_lt (h4 k hk)
  · exact fun k hk => Nat.lt_succ_of_lt (h5 k hk)
  · exact fun k hk => Nat.lt_succ_of_lt (h6 k hk)
  · exact fun k hk => Nat.lt_succ_of_lt (h7 k hk)
  · rw [List.map_append, List.nodup_append]
    refine ⟨h8, List.nodup_singleton _, ?_⟩
    intro a ha hb
    simp only [List.map_cons, List.map_nil, List.mem_singleton, QEntry.tid] at hb
    subst hb
    obtain ⟨e, he, htide⟩ := List.mem_map.mp ha
    exact absurd (htide ▸ h2 e he) (Nat.lt_irrefl _)
  · intro e he
    rcases List.mem_append.mp he with hold | hnew
    · obtain ⟨t, ht, hstat⟩ := h9 e hold
      refine ⟨t, ?_, hstat⟩
      rw [alist_find_set_ne _ _ (Nat.ne_of_lt (h2 e hold))]
      exact ht
    · rw [List.mem_singleton.mp hnew]
      exact ⟨tk, alist_find_set_self _ _ _, Or.inl htk_status⟩
  · intro e he
    rcases List.mem_append.mp he with hold | hnew
    · exact h10 e hold
    · rw [List.mem_singleton.mp hnew]
      intro hmem
      exact absurd (h7 n hmem) (Nat.lt_irrefl n)
  · intro k hk
    obtain ⟨t, ht, hstat⟩ := h11 k hk
    refine ⟨t, ?_, hstat⟩
    rw [alist_find_set_ne _ _ (Nat.ne_of_lt (h7 k hk))]
    exact ht
  · intro k hk
    obtain ⟨t, ht, hstat⟩ := h12 k hk
    refine ⟨t, ?_, hstat⟩
    rw [alist_find_set_ne _ _ (Nat.ne_of_lt (h4 k hk))]
    exact ht
  · intro k hk
    rcases mem_insert_key.mp hk with rfl | hold
    · exact ⟨tk, alist_find_set_self _ _ _, htk_status⟩
    · obtain ⟨t, ht, hstat⟩ := h13 k hold
      refine ⟨t, ?_, hstat⟩
      rw [alist_find_set_ne _ _ (Nat.ne_of_lt (h3 k hold))]
      exact ht
  · intro k t hk hante d hd
    rcases alist_find_set_cases hk with ⟨rfl, rfl⟩ | ⟨hne, hold⟩
    · exfalso
      rcases hante with hst | hst | hst | hmem
      · rw [htk_status] at hst; exact absurd hst (by decide)
      · rw [htk_status] at hst; exact absurd hst (by decide)
      · rw [htk_status] at hst; exact absurd hst (by decide)
      · exact absurd (h7 _ hmem) (Nat.lt_irrefl _)
    · exact h14 k t hold hante d hd
  · intro k t hk hfail
    rcases alist_find_set_cases hk with ⟨rfl, rfl⟩ | ⟨hne, hold⟩
    · rw [htk_rc]; exact Nat.zero_le _
    · exact h15 k t hold hfail
  · intro k t hk
    rcases alist_find_set_cases hk with ⟨rfl, rfl⟩ | ⟨hne, hold⟩
    · exact htk_id
    · exact h16 k t hold
  · intro k hk
    obtain ⟨t, ht, hstat⟩ := h17 k hk
    refine ⟨t, ?_, hstat⟩
    rw [alist_find_set_ne _ _ (Nat.ne_of_lt (h5 k hk))]
    exact ht
  · intro k hk hkf t2 hft
    rcases mem_insert_key.mp hk with rfl | hold
    · exact absurd (h6 _ hkf) (Nat.lt_irrefl _)
    · rw [alist_find_set_ne _ _ (Nat.ne_of_lt (h3 k hold))] at hft
      exact h18 k hold hkf t2 hft
  · intro e he hef t2 hft hstp
    rcases List.mem_append.mp he with hold | hnew
    · rw [alist_find_set_ne _ _ (Nat.ne_of_lt (h2 e hold))] at hft
      exact h19 e hold hef t2 hft hstp
    · have he2 := List.mem_singleton.mp hnew
      subst he2
      exact absurd (h6 _ hef) (Nat.lt_irrefl _)

theorem task_worker_step_empty {s : Orchestrator} (now : Nat)
    (h : queue_pop s.task_queue = none) : task_worker_step s now = s := by
  simp [task_worker_step, h]

theorem task_worker_step_eq {s : Orchestrator} {p c tid : Nat}
    {rest : List QEntry} {t : Task} (now : Nat)
    (hq : queue_pop s.task_queue = some ((p, c, tid), rest))
    (hf : alist_find s.tasks tid = some t) :
    task_worker_step s now =
      if t.status = .cancelled then
        { s with task_queue := rest
                 pending_tasks_by_id := erase_key s.pending_tasks_by_id tid
                 failed_tasks := insert_key s.failed_tasks tid }
      else if ∀ d ∈ t.dependencies, d ∈ s.completed_tasks then
        { s with task_queue := rest
                 pending_tasks_by_id := erase_key s.pending_tasks_by_id tid
                 tasks := alist_set s.tasks tid
                   { t with status := .running, started_at := some now }
                 running_tasks := insert_key s.running_tasks tid
                 executing := insert_key s.executing tid }
      else
        { s with task_queue := rest ++ [(p, c, tid)]
                 pending_tasks_by_id :=
                   insert_key (erase_key s.pending_tasks_by_id tid) tid } := by
  simp [task_worker_step, hq, hf, check_task_dependencies]

theorem inv_worker {s : Orchestrator} (hs : Inv s) (now : Nat) :
    Inv (task_worker_step s now) := by
  cases hq : queue_pop s.task_queue with
  | none => rw [task_worker_step_empty now hq]; exact hs
  | some pr =>
    obtain ⟨⟨p, c, tid⟩, rest⟩ := pr
    obtain ⟨h1, h2, h3, h4, h5, h6, h7, h8, h9, h10, h11, h12, h13, h14, h15, h16, h17, h18, h19⟩ := hs
    have he0 : (p, c, tid) ∈ s.task_queue := queue_pop_mem hq
    have hperm := queue_pop_perm hq
    have hids : (s.task_queue.map QEntry.tid).Perm
        (tid :: rest.map QEntry.tid) := by simpa using hperm.map QEntry.tid
    have hnd : (tid :: rest.map QEntry.tid).Nodup := hids.nodup h8
    have htid_rest : tid ∉ rest.map QEntry.tid := (List.nodup_cons.mp hnd).1
    have hrest_nd : (rest.map QEntry.tid).Nodup := (List.nodup_cons.mp hnd).2
    have hrest_sub : ∀ e ∈ rest, e ∈ s.task_queue :=
      fun e he => queue_pop_mem_rest hq he
    have hrest_ne : ∀ e ∈ rest, e.tid ≠ tid := by
      intro e he heq
      exact htid_rest (heq ▸ List.mem_map_of_mem QEntry.tid he)
    have htid_lt : tid < s.next_id := h2 _ he0
    have htid_nexec : tid ∉ s.executing := h10 _ he0
    obtain ⟨t0, ht0, hstat0⟩ := h9 _ he0
    have ht0' : alist_find s.tasks tid = some t0 := ht0
    rw [task_worker_step_eq now hq ht0']
    by_cases hcanc : t0.status = .cancelled
    · rw [if_pos hcanc]
      refine ⟨h1, fun e he => h2 e (hrest_sub e he),
        fun k hk => h3 k (mem_erase_key.mp hk).1, h4, h5, ?_, h7,
        hrest_nd, fun e he => h9 e (hrest_sub e he),
        fun e he => h10 e (hrest_sub e he), h11, h12,
        fun k hk => h13 k (mem_erase_key.mp hk).1, h14, h15, h16, h17,
        ?_, ?_⟩
      · intro k hk
        rcases mem_insert_key.mp hk with rfl | hold
        · exact htid_lt
        · exact h6 k hold
      · intro k hk hkf t2 hft
        obtain ⟨hold, hkne⟩ := mem_erase_key.mp hk
        rcases mem_insert_key.mp hkf with heq | hold2
        · exact absurd heq hkne
        · exact h18 k hold hold2 t2 hft
      · intro e he hef t2 hft hstp
        rcases mem_insert_key.mp hef with heq | hold2
        · exact absurd heq (hrest_ne e he)
        · exact h19 e (hrest_sub e he) hold2 t2 hft hstp
    · rw [if_neg hcanc]
      have hpend0 : t0.status = .pending := by
        rcases hstat0 with h | h
        · exact h
        · exact absurd h hcanc
      by_cases hdep : ∀ d ∈ t0.dependencies, d ∈ s.completed_tasks
      · rw [if_pos hdep]
        set t1 : Task := { t0 with status := .running, started_at := some now }
          with ht1
        have ht1_id : t1.task_id = tid := h16 tid t0 ht0'
        refine ⟨?_, fun e he => h2 e (hrest_sub e he),
          fun k hk => h3 k (mem_erase_key.mp hk).1, ?_, h5, h6, ?_,
          hrest_nd, ?_, ?_, ?_, ?_, ?_, ?_, ?_, ?_, ?_, ?_, ?_⟩
        · intro k t hk
          rcases alist_find_set_cases hk with ⟨rfl, rfl⟩ | ⟨hne, hold⟩
          · exact htid_lt
          · exact h1 k t hold
        · intro k hk
          rcases mem_insert_key.mp hk with rfl | hold
          · exact htid_lt
          · exact h4 k hold
        · intro k hk
          rcases mem_insert_key.mp hk with rfl | hold
          · exact htid_lt
          · exact h7 k hold
        · intro e he
          obtain ⟨t2, ht2, hstat2⟩ := h9 e (hrest_sub e he)
          refine ⟨t2, ?_, hstat2⟩
          rw [alist_find_set_ne _ _ (hrest_ne e he)]
          exact ht2
        · intro e he
          intro hmem
          rcases mem_insert_key.mp hmem with heq | hold
          · exact hrest_ne e he heq
          · exact h10 e (hrest_sub e he) hold
        · intro k hk
          rcases mem_insert_key.mp hk with rfl | hold
          · exact ⟨t1, alist_find_set_self _ _ _, Or.inl rfl⟩
          · obtain ⟨t2, ht2, hstat2⟩ := h11 k hold
            have hkne : k ≠ tid := by
              intro heq
              rw [heq] at hold
              exact htid_nexec hold
            refine ⟨t2, ?_, hstat2⟩
            rw [alist_find_set_ne _ _ hkne]
            exact ht2
        · intro k hk
          rcases mem_insert_key.mp hk with rfl | hold
          · exact ⟨t1, alist_find_set_self _ _ _, rfl⟩
          · obtain ⟨t2, ht2, hstat2⟩ := h12 k hold
            have hkne : k ≠ tid := by
              intro heq
              subst heq
              rw [ht0'] at ht2
              cases ht2
              rw [hpend0] at hstat2
              exact absurd hstat2 (by decide)
            refine ⟨t2, ?_, hstat2⟩
            rw [alist_find_set_ne _ _ hkne]
            exact ht2
        · intro k hk
          obtain ⟨hold, hkne⟩ := mem_erase_key.mp hk
          obtain ⟨t2, ht2, hstat2⟩ := h13 k hold
          refine ⟨t2, ?_, hstat2⟩
          rw [alist_find_set_ne _ _ hkne]
          exact ht2
        · intro k t hk hante d hd
          rcases alist_find_set_cases hk with ⟨rfl, rfl⟩ | ⟨hne, hold⟩
          · exact hdep d hd
          · refine h14 k t hold ?_ d hd
            rcases hante with hst | hst | hst | hmem
            · exact Or.inl hst
            · exact Or.inr (Or.inl hst)
            · exact Or.inr (Or.inr (Or.inl hst))
            · rcases mem_insert_key.mp hmem with heq | hold2
              · exact absurd heq hne
              · exact Or.inr (Or.inr (Or.inr hold2))
        · intro k t hk hfail
          rcases alist_find_set_cases hk with ⟨rfl, rfl⟩ | ⟨hne, hold⟩
          · exact h15 _ t0 ht0' (by rw [hpend0]; decide)
          · exact h15 k t hold hfail
        · intro k t hk
          rcases alist_find_set_cases hk with ⟨rfl, rfl⟩ | ⟨hne, hold⟩
          · exact ht1_id
          · exact h16 k t hold
        · intro k hk
          obtain ⟨t2, ht2, hstat2⟩ := h17 k hk
          have hkne : k ≠ tid := by
            intro heq
            subst heq
            rw [ht0'] at ht2
            cases ht2
            rw [hpend0] at hstat2
            exact absurd hstat2 (by decide)
          refine ⟨t2, ?_, hstat2⟩
          rw [alist_find_set_ne _ _ hkne]
          exact ht2
        · intro k hk hkf t2 hft
          obtain ⟨hold, hkne⟩ := mem_erase_key.mp hk
          rw [alist_find_set_ne _ _ hkne] at hft
          exact h18 k hold hkf t2 hft
        · intro e he hef t2 hft hstp
          rw [alist_find_set_ne _ _ (hrest_ne e he)] at hft
          exact h19 e (hrest_sub e he) hef t2 hft hstp
      · rw [if_neg hdep]
        refine ⟨h1, ?_, ?_, h4, h5, h6, h7, ?_, ?_, ?_, h11, h12, ?_, h14, h15,
          h16, h17, ?_, ?_⟩
        · intro e he
          rcases List.mem_append.mp he with hold | hnew
          · exact h2 e (hrest_sub e hold)
          · rw [List.mem_singleton.mp hnew]; exact htid_lt
        · intro k hk
          rcases mem_insert_key.mp hk with rfl | hold
          · exact htid_lt
          · exact h3 k (mem_erase_key.mp hold).1
        · rw [List.map_append, List.nodup_append]
          refine ⟨hrest_nd, List.nodup_singleton _, ?_⟩
          intro a ha hb
          simp only [List.map_cons, List.map_nil, List.mem_singleton,
            QEntry.tid] at hb
          subst hb
          exact htid_rest ha
        · intro e he
          rcases List.mem_append.mp he with hold | hnew
          · exact h9 e (hrest_sub e hold)
          · rw [List.mem_singleton.mp hnew]
            exact ⟨t0, ht0', Or.inl hpend0⟩
        · intro e he
          rcases List.mem_append.mp he with hold | hnew
          · exact h10 e (hrest_sub e hold)
          · rw [List.mem_singleton.mp hnew]
            exact htid_nexec
        · intro k hk
          rcases mem_insert_key.mp hk with rfl | hold
          · exact ⟨t0, ht0', hpend0⟩
          · exact h13 k (mem_erase_key.mp hold).1
        · intro k hk hkf t2 hft
          rcases mem_insert_key.mp hk with rfl | hold
          · rw [ht0'] at hft
            cases hft
            exact h19 _ he0 hkf t0 ht0' hpend0
          · exact h18 k (mem_erase_key.mp hold).1 hkf t2 hft
        · intro e he hef t2 hft hstp
          rcases List.mem_append.mp he with hold | hnew
          · exact h19 e (hrest_sub e hold) hef t2 hft hstp
          · have he2 := List.mem_singleton.mp hnew
            subst he2
            exact h19 _ he0 hef t2 hft hstp

theorem pending_ne_of_executing {s : Orchestrator} (hs : Inv s) {tid : Nat}
    (hexec : tid ∈ s.executing) :
    ∀ k ∈ s.pending_tasks_by_id, k ≠ tid := by
  intro k hk heq
  subst heq
  obtain ⟨tp, htp, hstp⟩ := hs.pending_status _ hk
  obtain ⟨te, hte, hste⟩ := hs.executing_status _ hexec
  rw [htp] at hte
  cases hte
  rw [hstp] at hste
  rcases hste with h | h <;> exact absurd h (by decide)

theorem queue_ne_of_executing {s : Orchestrator} (hs : Inv s) {tid : Nat}
    (hexec : tid ∈ s.executing) :
    ∀ e ∈ s.task_queue, e.tid ≠ tid := by
  intro e he heq
  rw [← heq] at hexec
  exact hs.queue_executing e he hexec

theorem inv_success_state {s : Orchestrator} (hs : Inv s) {tid : Nat} {t : Task}
    (hexec : tid ∈ s.executing) (hf : alist_find s.tasks tid = some t)
    (t2 : Task) (h_id : t2.task_id = tid) (h_st : t2.status = .completed)
    (h_rc : t2.retry_count = t.retry_count)
    (h_max : t2.max_retries = t.max_retries)
    (h_deps : t2.dependencies = t.dependencies) :
    Inv { s with
      tasks := alist_set s.tasks tid t2
      completed_tasks := insert_key s.completed_tasks tid
      executing := erase_key s.executing tid
      running_tasks := erase_key s.running_tasks tid } := by
  have hexlt : tid < s.next_id := hs.executing_lt tid hexec
  have hqne := queue_ne_of_executing hs hexec
  have hpne := pending_ne_of_executing hs hexec
  obtain ⟨te, hte, hste⟩ := hs.executing_status _ hexec
  rw [hf] at hte
  cases hte
  constructor
  · intro k t3 hk
    rcases alist_find_set_cases hk with ⟨rfl, rfl⟩ | ⟨hne, hold⟩
    · exact hexlt
    · exact hs.tasks_lt k t3 hold
  · exact hs.queue_lt
  · exact hs.pending_lt
  · exact fun k hk => hs.running_lt k (mem_erase_key.mp hk).1
  · intro k hk
    rcases mem_insert_key.mp hk with rfl | hold
    · exact hexlt
    · exact hs.completed_lt k hold
  · exact hs.failed_lt
  · exact fun k hk => hs.executing_lt k (mem_erase_key.mp hk).1
  · exact hs.queue_nodup
  · intro e he
    obtain ⟨t3, ht3, hstat3⟩ := hs.queue_status e he
    refine ⟨t3, ?_, hstat3⟩
    rw [alist_find_set_ne _ _ (hqne e he)]
    exact ht3
  · intro e he hmem
    exact hs.queue_executing e he (mem_erase_key.mp hmem).1
  · intro k hk
    obtain ⟨hold, hkne⟩ := mem_erase_key.mp hk
    obtain ⟨t3, ht3, hstat3⟩ := hs.executing_status k hold
    refine ⟨t3, ?_, hstat3⟩
    rw [alist_find_set_ne _ _ hkne]
    exact ht3
  · intro k hk
    obtain ⟨hold, hkne⟩ := mem_erase_key.mp hk
    obtain ⟨t3, ht3, hstat3⟩ := hs.running_status k hold
    refine ⟨t3, ?_, hstat3⟩
    rw [alist_find_set_ne _ _ hkne]
    exact ht3
  · intro k hk
    obtain ⟨t3, ht3, hstat3⟩ := hs.pending_status k hk
    refine ⟨t3, ?_, hstat3⟩
    rw [alist_find_set_ne _ _ (hpne k hk)]
    exact ht3
  · intro k t3 hk hante d hd
    rcases alist_find_set_cases hk with ⟨rfl, rfl⟩ | ⟨hne, hold⟩
    · refine mem_insert_key.mpr (Or.inr ?_)
      refine hs.dep_inv _ t hf (Or.inr (Or.inr (Or.inr hexec))) d ?_
      rw [← h_deps]
      exact hd
    · refine mem_insert_key.mpr (Or.inr ?_)
      refine hs.dep_inv k t3 hold ?_ d hd
      rcases hante with h | h | h | hmem
      · exact Or.inl h
      · exact Or.inr (Or.inl h)
      · exact Or.inr (Or.inr (Or.inl h))
      · exact Or.inr (Or.inr (Or.inr (mem_erase_key.mp hmem).1))
  · intro k t3 hk hfail
    rcases alist_find_set_cases hk with ⟨rfl, rfl⟩ | ⟨hne, hold⟩
    · rw [h_rc, h_max]
      refine hs.retry_inv _ t hf ?_
      rcases hste with h | h <;> rw [h] <;> decide
    · exact hs.retry_inv k t3 hold hfail
  · intro k t3 hk
    rcases alist_find_set_cases hk with ⟨rfl, rfl⟩ | ⟨hne, hold⟩
    · exact h_id
    · exact hs.tasks_key k t3 hold

  · intro k hk
    rcases mem_insert_key.mp hk with rfl | hold
    · exact ⟨t2, alist_find_set_self _ _ _, h_st⟩
    · obtain ⟨t3, ht3, hstat3⟩ := hs.completed_status k hold
      have hkne : k ≠ tid := by
        intro heq
        subst heq
        rw [hf] at ht3
        cases ht3
        rw [hstat3] at hste
        rcases hste with h | h <;> exact absurd h (by decide)
      refine ⟨t3, ?_, hstat3⟩
      rw [alist_find_set_ne _ _ hkne]
      exact ht3
  · intro k hk hkf t3 hft
    rw [alist_find_set_ne _ _ (hpne k hk)] at hft
    exact hs.pending_failed_rc k hk hkf t3 hft
  · intro e he hef t3 hft hstp
    rw [alist_find_set_ne _ _ (hqne e he)] at hft
    exact hs.queue_failed_rc e he hef t3 hft hstp

theorem inv_fail_retry_state {s : Orchestrator} (hs : Inv s) {tid : Nat}
    {t : Task} (hexec : tid ∈ s.executing)
    (hf : alist_find s.tasks tid = some t) (t2 : Task)
    (h_id : t2.task_id = tid) (h_st : t2.status = .pending)
    (h_rc : t2.retry_count = t.retry_count + 1)
    (h_max : t2.max_retries = t.max_retries)
    (h_deps : t2.dependencies = t.dependencies)
    (hle : t.retry_count + 1 ≤ t.max_retries) :
    Inv { s with
      tasks := alist_set s.tasks tid t2
      task_queue := s.task_queue ++ [(t.priority.value, t.created_at, tid)]
      pending_tasks_by_id := insert_key s.pending_tasks_by_id tid
      executing := erase_key s.executing tid
      running_tasks := erase_key s.running_tasks tid } := by
  have hexlt : tid < s.next_id := hs.executing_lt tid hexec
  have hqne := queue_ne_of_executing hs hexec
  have hpne := pending_ne_of_executing hs hexec
  obtain ⟨te, hte, hste⟩ := hs.executing_status _ hexec
  rw [hf] at hte
  cases hte
  constructor
  · intro k t3 hk
    rcases alist_find_set_cases hk with ⟨rfl, rfl⟩ | ⟨hne, hold⟩
    · exact hexlt
    · exact hs.tasks_lt k t3 hold
  · intro e he
    rcases List.mem_append.mp he with hold | hnew
    · exact hs.queue_lt e hold
    · rw [List.mem_singleton.mp hnew]; exact hexlt
  · intro k hk
    rcases mem_insert_key.mp hk with rfl | hold
    · exact hexlt
    · exact hs.pending_lt k hold
  · exact fun k hk => hs.running_lt k (mem_erase_key.mp hk).1
  · exact hs.completed_lt
  · exact hs.failed_lt
  · exact fun k hk => hs.executing_lt k (mem_erase_key.mp hk).1
  · rw [List.map_append, List.nodup_append]
    refine ⟨hs.queue_nodup, List.nodup_singleton _, ?_⟩
    intro a ha hb
    simp only [List.map_cons, List.map_nil, List.mem_singleton, QEntry.tid] at hb
    subst hb
    obtain ⟨e, he, htide⟩ := List.mem_map.mp ha
    exact hqne e he htide
  · intro e he
    rcases List.mem_append.mp he with hold | hnew
    · obtain ⟨t3, ht3, hstat3⟩ := hs.queue_status e hold
      refine ⟨t3, ?_, hstat3⟩
      rw [alist_find_set_ne _ _ (hqne e hold)]
      exact ht3
    · rw [List.mem_singleton.mp hnew]
      exact ⟨t2, alist_find_set_self _ _ _, Or.inl h_st⟩
  · intro e he hmem
    obtain ⟨hmem2, _⟩ := mem_erase_key.mp hmem
    rcases List.mem_append.mp he with hold | hnew
    · exact hs.queue_executing e hold hmem2
    · rw [List.mem_singleton.mp hnew] at hmem
      exact absurd rfl (mem_erase_key.mp hmem).2
  · intro k hk
    obtain ⟨hold, hkne⟩ := mem_erase_key.mp hk
    obtain ⟨t3, ht3, hstat3⟩ := hs.executing_status k hold
    refine ⟨t3, ?_, hstat3⟩
    rw [alist_find_set_ne _ _ hkne]
    exact ht3
  · intro k hk
    obtain ⟨hold, hkne⟩ := mem_erase_key.mp hk
    obtain ⟨t3, ht3, hstat3⟩ := hs.running_status k hold
    refine ⟨t3, ?_, hstat3⟩
    rw [alist_find_set_ne _ _ hkne]
    exact ht3
  · intro k hk
    rcases mem_insert_key.mp hk with rfl | hold
    · exact ⟨t2, alist_find_set_self _ _ _, h_st⟩
    · obtain ⟨t3, ht3, hstat3⟩ := hs.pending_status k hold
      refine ⟨t3, ?_, hstat3⟩
      rw [alist_find_set_ne _ _ (hpne k hold)]
      exact ht3
  · intro k t3 hk hante d hd
    rcases alist_find_set_cases hk with ⟨rfl, rfl⟩ | ⟨hne, hold⟩
    · exfalso
      rcases hante with h | h | h | hmem
      · rw [h_st] at h; exact absurd h (by decide)
      · rw [h_st] at h; exact absurd h (by decide)
      · rw [h_st] at h; exact absurd h (by decide)
      · exact absurd rfl (mem_erase_key.mp hmem).2
    · refine hs.dep_inv k t3 hold ?_ d hd
      rcases hante with h | h | h | hmem
      · exact Or.inl h
      · exact Or.inr (Or.inl h)
      · exact Or.inr (Or.inr (Or.inl h))
      · exact Or.inr (Or.inr (Or.inr (mem_erase_key.mp hmem).1))
  · intro k t3 hk hfail
    rcases alist_find_set_cases hk with ⟨rfl, rfl⟩ | ⟨hne, hold⟩
    · rw [h_rc, h_max]; exact hle
    · exact hs.retry_inv k t3 hold hfail
  · intro k t3 hk
    rcases alist_find_set_cases hk with ⟨rfl, rfl⟩ | ⟨hne, hold⟩
    · exact h_id
    · exact hs.tasks_key k t3 hold

  · intro k hk
    obtain ⟨t3, ht3, hstat3⟩ := hs.completed_status k hk
    have hkne : k ≠ tid := by
      intro heq
      subst heq
      rw [hf] at ht3
      cases ht3
      rw [hstat3] at hste
      rcases hste with h | h <;> exact absurd h (by decide)
    refine ⟨t3, ?_, hstat3⟩
    rw [alist_find_set_ne _ _ hkne]
    exact ht3
  · intro k hk hkf t3 hft
    rcases mem_insert_key.mp hk with rfl | hold
    · rw [alist_find_set_self] at hft
      cases hft
      rw [h_rc]
      exact Nat.succ_le_succ (Nat.zero_le _)
    · rw [alist_find_set_ne _ _ (hpne k hold)] at hft
      exact hs.pending_failed_rc k hold hkf t3 hft
  · intro e he hef t3 hft hstp
    rcases List.mem_append.mp he with hold | hnew
    · rw [alist_find_set_ne _ _ (hqne e hold)] at hft
      exact hs.queue_failed_rc e hold hef t3 hft hstp
    · have he2 := List.mem_singleton.mp hnew
      subst he2
      have hft2 : alist_find (alist_set s.tasks tid t2) tid = some t3 := hft
      rw [alist_find_set_self] at hft2
      cases hft2
      rw [h_rc]
      exact Nat.succ_le_succ (Nat.zero_le _)

theorem inv_fail_final_state {s : Orchestrator} (hs : Inv s) {tid : Nat}
    {t : Task} (hexec : tid ∈ s.executing)
    (hf : alist_find s.tasks tid = some t) (t2 : Task)
    (h_id : t2.task_id = tid) (h_st : t2.status = .failed)
    (h_deps : t2.dependencies = t.dependencies) :
    Inv { s with
      tasks := alist_set s.tasks tid t2
      failed_tasks := insert_key s.failed_tasks tid
      executing := erase_key s.executing tid
      running_tasks := erase_key s.running_tasks tid } := by
  have hexlt : tid < s.next_id := hs.executing_lt tid hexec
  have hqne := queue_ne_of_executing hs hexec
  have hpne := pending_ne_of_executing hs hexec
  obtain ⟨te, hte, hste⟩ := hs.executing_status _ hexec
  rw [hf] at hte
  cases hte
  constructor
  · intro k t3 hk
    rcases alist_find_set_cases hk with ⟨rfl, rfl⟩ | ⟨hne, hold⟩
    · exact hexlt
    · exact hs.tasks_lt k t3 hold
  · exact hs.queue_lt
  · exact hs.pending_lt
  · exact fun k hk => hs.running_lt k (mem_erase_key.mp hk).1
  · exact hs.completed_lt
  · intro k hk
    rcases mem_insert_key.mp hk with rfl | hold
    · exact hexlt
    · exact hs.failed_lt k hold
  · exact fun k hk => hs.executing_lt k (mem_erase_key.mp hk).1
  · exact hs.queue_nodup
  · intro e he
    obtain ⟨t3, ht3, hstat3⟩ := hs.queue_status e he
    refine ⟨t3, ?_, hstat3⟩
    rw [alist_find_set_ne _ _ (hqne e he)]
    exact ht3
  · intro e he hmem
    exact hs.queue_executing e he (mem_erase_key.mp hmem).1
  · intro k hk
    obtain ⟨hold, hkne⟩ := mem_erase_key.mp hk
    obtain ⟨t3, ht3, hstat3⟩ := hs.executing_status k hold
    refine ⟨t3, ?_, hstat3⟩
    rw [alist_find_set_ne _ _ hkne]
    exact ht3
  · intro k hk
    obtain ⟨hold, hkne⟩ := mem_erase_key.mp hk
    obtain ⟨t3, ht3, hstat3⟩ := hs.running_status k hold
    refine ⟨t3, ?_, hstat3⟩
    rw [alist_find_set_ne _ _ hkne]
    exact ht3
  · intro k hk
    obtain ⟨t3, ht3, hstat3⟩ := hs.pending_status k hk
    refine ⟨t3, ?_, hstat3⟩
    rw [alist_find_set_ne _ _ (hpne k hk)]
    exact ht3
  · intro k t3 hk hante d hd
    rcases alist_find_set_cases hk with ⟨rfl, rfl⟩ | ⟨hne, hold⟩
    · refine hs.dep_inv _ t hf (Or.inr (Or.inr (Or.inr hexec))) d ?_
      rw [← h_deps]
      exact hd
    · refine hs.dep_inv k t3 hold ?_ d hd
      rcases hante with h | h | h | hmem
      · exact Or.inl h
      · exact Or.inr (Or.inl h)
      · exact Or.inr (Or.inr (Or.inl h))
      · exact Or.inr (Or.inr (Or.inr (mem_erase_key.mp hmem).1))
  · intro k t3 hk hfail
    rcases alist_find_set_cases hk with ⟨rfl, rfl⟩ | ⟨hne, hold⟩
    · exact absurd h_st hfail
    · exact hs.retry_inv k t3 hold hfail
  · intro k t3 hk
    rcases alist_find_set_cases hk with ⟨rfl, rfl⟩ | ⟨hne, hold⟩
    · exact h_id
    · exact hs.tasks_key k t3 hold

  · intro k hk
    obtain ⟨t3, ht3, hstat3⟩ := hs.completed_status k hk
    have hkne : k ≠ tid := by
      intro heq
      subst heq
      rw [hf] at ht3
      cases ht3
      rw [hstat3] at hste
      rcases hste with h | h <;> exact absurd h (by decide)
    refine ⟨t3, ?_, hstat3⟩
    rw [alist_find_set_ne _ _ hkne]
    exact ht3
  · intro k hk hkf t3 hft
    rw [alist_find_set_ne _ _ (hpne k hk)] at hft
    rcases mem_insert_key.mp hkf with heq | hold2
    · exact absurd heq (hpne k hk)
    · exact hs.pending_failed_rc k hk hold2 t3 hft
  · intro e he hef t3 hft hstp
    rw [alist_find_set_ne _ _ (hqne e he)] at hft
    rcases mem_insert_key.mp hef with heq | hold2
    · exact absurd heq (hqne e he)
    · exact hs.queue_failed_rc e he hold2 t3 hft hstp

theorem inv_finish {s : Orchestrator} (hs : Inv s) (tid : Nat)
    (outcome : ExecOutcome) (now : Nat) :
    Inv (process_task_result s tid outcome now) := by
  by_cases hexec : tid ∈ s.executing
  · cases hf : alist_find s.tasks tid with
    | none =>
      have hid : process_task_result s tid outcome now = s := by
        simp [process_task_result, hexec, hf]
      rw [hid]
      exact hs
    | some t =>
      have htid : t.task_id = tid := hs.tasks_key tid t hf
      rcases outcome with r | msg
      · by_cases hsucc : r.success = true
        · have hshape : process_task_result s tid (.result r) now =
              { s with
                tasks := alist_set s.tasks tid
                  { t with result := some r, completed_at := some now,
                           status := .completed }
                completed_tasks := insert_key s.completed_tasks tid
                executing := erase_key s.executing tid
                running_tasks := erase_key s.running_tasks tid } := by
            simp [process_task_result, hexec, hf, handle_task_success, hsucc,
              htid]
          rw [hshape]
          exact inv_success_state hs hexec hf _ htid rfl rfl rfl rfl
        · by_cases hle : t.retry_count + 1 ≤ t.max_retries
          · have hshape : process_task_result s tid (.result r) now =
                { s with
                  tasks := alist_set s.tasks tid
                    { t with result := some r, completed_at := some now,
                             error := r.error,
                             retry_count := t.retry_count + 1,
                             status := .pending, started_at := none }
                  task_queue := s.task_queue ++
                    [(t.priority.value, t.created_at, tid)]
                  pending_tasks_by_id := insert_key s.pending_tasks_by_id tid
                  executing := erase_key s.executing tid
                  running_tasks := erase_key s.running_tasks tid } := by
              simp [process_task_result, hexec, hf, handle_task_failure, hsucc,
                hle, htid]
            rw [hshape]
            exact inv_fail_retry_state hs hexec hf _ htid rfl rfl rfl rfl hle
          · have hshape : process_task_result s tid (.result r) now =
                { s with
                  tasks := alist_set s.tasks tid
                    { t with result := some r, completed_at := some now,
                             error := r.error,
                             retry_count := t.retry_count + 1,
                             status := .failed }
                  failed_tasks := insert_key s.failed_tasks tid
                  executing := erase_key s.executing tid
                  running_tasks := erase_key s.running_tasks tid } := by
              simp [process_task_result, hexec, hf, handle_task_failure, hsucc,
                hle, htid]
            rw [hshape]
            exact inv_fail_final_state hs hexec hf _ htid rfl rfl
      · by_cases hle : t.retry_count + 1 ≤ t.max_retries
        · have hshape : process_task_result s tid (.failure msg) now =
              { s with
                tasks := alist_set s.tasks tid
                  { t with error := some msg,
                           retry_count := t.retry_count + 1,
                           status := .pending, started_at := none }
                task_queue := s.task_queue ++
                  [(t.priority.value, t.created_at, tid)]
                pending_tasks_by_id := insert_key s.pending_tasks_by_id tid
                executing := erase_key s.executing tid
                running_tasks := erase_key s.running_tasks tid } := by
            simp [process_task_result, hexec, hf, handle_task_failure, hle,
              htid]
          rw [hshape]
          exact inv_fail_retry_state hs hexec hf _ htid rfl rfl rfl rfl hle
        · have hshape : process_task_result s tid (.failure msg) now =
              { s with
                tasks := alist_set s.tasks tid
                  { t with error := some msg,
                           retry_count := t.retry_count + 1,
                           status := .failed, completed_at := some now }
                failed_tasks := insert_key s.failed_tasks tid
                executing := erase_key s.executing tid
                running_tasks := erase_key s.running_tasks tid } := by
            simp [process_task_result, hexec, hf, handle_task_failure, hle,
              htid]
          rw [hshape]
          exact inv_fail_final_state hs hexec hf _ htid rfl rfl
  · have hid : process_task_result s tid outcome now = s := by
      simp [process_task_result, hexec]
    rw [hid]
    exact hs

theorem inv_cancel {s : Orchestrator} (hs : Inv s) (tid now : Nat) :
    Inv (cancel_task s tid now).2 := by
  by_cases hrun : tid ∈ s.running_tasks
  · obtain ⟨t, hft, hst⟩ := hs.running_status tid hrun
    have htlt : tid < s.next_id := hs.running_lt tid hrun
    have htid : t.task_id = tid := hs.tasks_key tid t hft
    have hqne : ∀ e ∈ s.task_queue, e.tid ≠ tid := by
      intro e he heq
      obtain ⟨t', ht', hs'⟩ := hs.queue_status e he
      rw [heq, hft] at ht'
      cases ht'
      rw [hst] at hs'
      rcases hs' with h | h <;> exact absurd h (by decide)
    have hpne : ∀ k ∈ s.pending_tasks_by_id, k ≠ tid := by
      intro k hk heq
      obtain ⟨t', ht', hs'⟩ := hs.pending_status k hk
      rw [heq, hft] at ht'
      cases ht'
      rw [hst] at hs'
      exact absurd hs' (by decide)
    have hshape : (cancel_task s tid now).2 =
        { s with
          tasks := alist_update s.tasks tid
            (fun t0 => { t0 with status := .cancelled, completed_at := some now })
          running_tasks := erase_key s.running_tasks tid
          failed_tasks := insert_key s.failed_tasks tid } := by
      simp [cancel_task, hrun]
    rw [hshape]
    constructor
    · intro k t3 hk
      rcases alist_find_update_cases hk with ⟨rfl, t0, ht0, rfl⟩ | ⟨hne, hold⟩
      · exact htlt
      · exact hs.tasks_lt k t3 hold
    · exact hs.queue_lt
    · exact hs.pending_lt
    · exact fun k hk => hs.running_lt k (mem_erase_key.mp hk).1
    · exact hs.completed_lt
    · intro k hk
      rcases mem_insert_key.mp hk with rfl | hold
      · exact htlt
      · exact hs.failed_lt k hold
    · exact hs.executing_lt
    · exact hs.queue_nodup
    · intro e he
      obtain ⟨t3, ht3, hstat3⟩ := hs.queue_status e he
      refine ⟨t3, ?_, hstat3⟩
      rw [alist_find_update_ne _ _ (hqne e he)]
      exact ht3
    · exact hs.queue_executing
    · intro k hk
      by_cases hkt : k = tid
      · subst hkt
        refine ⟨{ t with status := .cancelled, completed_at := some now }, ?_,
          Or.inr rfl⟩
        rw [alist_find_update_self, hft]
        rfl
      · obtain ⟨t3, ht3, hstat3⟩ := hs.executing_status k hk
        refine ⟨t3, ?_, hstat3⟩
        rw [alist_find_update_ne _ _ hkt]
        exact ht3
    · intro k hk
      obtain ⟨hold, hkne⟩ := mem_erase_key.mp hk
      obtain ⟨t3, ht3, hstat3⟩ := hs.running_status k hold
      refine ⟨t3, ?_, hstat3⟩
      rw [alist_find_update_ne _ _ hkne]
      exact ht3
    · intro k hk
      obtain ⟨t3, ht3, hstat3⟩ := hs.pending_status k hk
      refine ⟨t3, ?_, hstat3⟩
      rw [alist_find_update_ne _ _ (hpne k hk)]
      exact ht3
    · intro k t3 hk hante d hd
      rcases alist_find_update_cases hk with ⟨rfl, t0, ht0, rfl⟩ | ⟨hne, hold⟩
      · rw [hft] at ht0
        cases ht0
        refine hs.dep_inv _ t hft ?_ d hd
        rcases hante with h | h | h | hmem
        · exact nomatch h
        · exact nomatch h
        · exact nomatch h
        · exact Or.inr (Or.inr (Or.inr hmem))
      · refine hs.dep_inv k t3 hold hante d hd
    · intro k t3 hk hfail
      rcases alist_find_update_cases hk with ⟨rfl, t0, ht0, rfl⟩ | ⟨hne, hold⟩
      · rw [hft] at ht0
        cases ht0
        exact hs.retry_inv _ t hft (by rw [hst]; decide)
      · exact hs.retry_inv k t3 hold hfail
    · intro k t3 hk
      rcases alist_find_update_cases hk with ⟨rfl, t0, ht0, rfl⟩ | ⟨hne, hold⟩
      · exact hs.tasks_key _ t0 ht0
      · exact hs.tasks_key k t3 hold
    · intro k hk
      obtain ⟨t3, ht3, hstat3⟩ := hs.completed_status k hk
      have hkne : k ≠ tid := by
        intro heq
        subst heq
        rw [hft] at ht3
        cases ht3
        rw [hst] at hstat3
        exact absurd hstat3 (by decide)
      refine ⟨t3, ?_, hstat3⟩
      rw [alist_find_update_ne _ _ hkne]
      exact ht3
    · intro k hk hkf t3 hft2
      rw [alist_find_update_ne _ _ (hpne k hk)] at hft2
      rcases mem_insert_key.mp hkf with heq | hold2
      · exact absurd heq (hpne k hk)
      · exact hs.pending_failed_rc k hk hold2 t3 hft2
    · intro e he hef t3 hft2 hstp
      rw [alist_find_update_ne _ _ (hqne e he)] at hft2
      rcases mem_insert_key.mp hef with heq | hold2
      · exact absurd heq (hqne e he)
      · exact hs.queue_failed_rc e he hold2 t3 hft2 hstp
  · by_cases hpend : tid ∈ s.pending_tasks_by_id
    · obtain ⟨t, hft, hst⟩ := hs.pending_status tid hpend
      have htlt : tid < s.next_id := hs.pending_lt tid hpend
      have hnexec : tid ∉ s.executing := by
        intro hmem
        obtain ⟨t', ht', hs'⟩ := hs.executing_status tid hmem
        rw [hft] at ht'
        cases ht'
        rw [hst] at hs'
        rcases hs' with h | h <;> exact absurd h (by decide)
      have hshape : (cancel_task s tid now).2 =
          { s with
            tasks := alist_update s.tasks tid
              (fun t0 =>
                { t0 with status := .cancelled, completed_at := some now })
            pending_tasks_by_id := erase_key s.pending_tasks_by_id tid
            failed_tasks := insert_key s.failed_tasks tid } := by
        simp [cancel_task, hrun, hpend]
      rw [hshape]
      constructor
      · intro k t3 hk
        rcases alist_find_update_cases hk with ⟨rfl, t0, ht0, rfl⟩ | ⟨hne, hold⟩
        · exact htlt
        · exact hs.tasks_lt k t3 hold
      · exact hs.queue_lt
      · exact fun k hk => hs.pending_lt k (mem_erase_key.mp hk).1
      · exact hs.running_lt
      · exact hs.completed_lt
      · intro k hk
        rcases mem_insert_key.mp hk with rfl | hold
        · exact htlt
        · exact hs.failed_lt k hold
      · exact hs.executing_lt
      · exact hs.queue_nodup
      · intro e he
        obtain ⟨t3, ht3, hstat3⟩ := hs.queue_status e he
        by_cases hkt : e.tid = tid
        · rw [hkt] at ht3 ⊢
          rw [hft] at ht3
          cases ht3
          refine ⟨{ t with status := .cancelled, completed_at := some now }, ?_,
            Or.inr rfl⟩
          rw [alist_find_update_self, hft]
          rfl
        · refine ⟨t3, ?_, hstat3⟩
          rw [alist_find_update_ne _ _ hkt]
          exact ht3
      · exact hs.queue_executing
      · intro k hk
        have hkt : k ≠ tid := by
          intro heq
          rw [heq] at hk
          exact hnexec hk
        obtain ⟨t3, ht3, hstat3⟩ := hs.executing_status k hk
        refine ⟨t3, ?_, hstat3⟩
        rw [alist_find_update_ne _ _ hkt]
        exact ht3
      · intro k hk
        have hkt : k ≠ tid := by
          intro heq
          rw [heq] at hk
          exact hrun hk
        obtain ⟨t3, ht3, hstat3⟩ := hs.running_status k hk
        refine ⟨t3, ?_, hstat3⟩
        rw [alist_find_update_ne _ _ hkt]
        exact ht3
      · intro k hk
        obtain ⟨hold, hkne⟩ := mem_erase_key.mp hk
        obtain ⟨t3, ht3, hstat3⟩ := hs.pending_status k hold
        refine ⟨t3, ?_, hstat3⟩
        rw [alist_find_update_ne _ _ hkne]
        exact ht3
      · intro k t3 hk hante d hd
        rcases alist_find_update_cases hk with ⟨rfl, t0, ht0, rfl⟩ | ⟨hne, hold⟩
        · exfalso
          rcases hante with h | h | h | hmem
          · exact nomatch h
          · exact nomatch h
          · exact nomatch h
          · exact hnexec hmem
        · exact hs.dep_inv k t3 hold hante d hd
      · intro k t3 hk hfail
        rcases alist_find_update_cases hk with ⟨rfl, t0, ht0, rfl⟩ | ⟨hne, hold⟩
        · rw [hft] at ht0
          cases ht0
          exact hs.retry_inv _ t hft (by rw [hst]; decide)
        · exact hs.retry_inv k t3 hold hfail
      · intro k t3 hk
        rcases alist_find_update_cases hk with ⟨rfl, t0, ht0, rfl⟩ | ⟨hne, hold⟩
        · exact hs.tasks_key _ t0 ht0
        · exact hs.tasks_key k t3 hold
      · intro k hk
        obtain ⟨t3, ht3, hstat3⟩ := hs.completed_status k hk
        have hkne : k ≠ tid := by
          intro heq
          subst heq
          rw [hft] at ht3
          cases ht3
          rw [hst] at hstat3
          exact absurd hstat3 (by decide)
        refine ⟨t3, ?_, hstat3⟩
        rw [alist_find_update_ne _ _ hkne]
        exact ht3
      · intro k hk hkf t3 hft2
        obtain ⟨hold, hkne⟩ := mem_erase_key.mp hk
        rw [alist_find_update_ne _ _ hkne] at hft2
        rcases mem_insert_key.mp hkf with heq | hold2
        · exact absurd heq hkne
        · exact hs.pending_failed_rc k hold hold2 t3 hft2
      · intro e he hef t3 hft2 hstp
        rcases alist_find_update_cases hft2 with ⟨heq, t0, ht0, rfl⟩ |
          ⟨hne, hold⟩
        · exact nomatch hstp
        · rcases mem_insert_key.mp hef with heq2 | hold2
          · exact absurd heq2 hne
          · exact hs.queue_failed_rc e he hold2 t3 hold hstp
    · have hshape : (cancel_task s tid now).2 = s := by
        simp [cancel_task, hrun, hpend]
      rw [hshape]
      exact hs

theorem inv_submit_state {s : Orchestrator} (hs : Inv s)
    (task_type agent_id : String) (context : Ctx) (priority : TaskPriority)
    (timeout max_retries : Option Nat) (dependencies : Option (List Nat))
    (metadata : Option Ctx) (now : Nat) :
    Inv (submit_state s task_type agent_id context priority timeout max_retries
      dependencies metadata now) := by
  unfold submit_state
  cases h : submit_task s task_type agent_id context priority timeout
      max_retries dependencies metadata now with
  | ok pr =>
    obtain ⟨tid, s1⟩ := pr
    exact inv_submit hs h
  | error e => exact hs

theorem inv_execute_steps {wf_context : Ctx} {wf_id : Nat}
    {execution_id : String} {now : Nat} :
    ∀ (steps : List WorkflowStep) (s : Orchestrator)
      (step_tasks : List (String × Nat)) {s2 : Orchestrator}
      {acc : List (String × Nat)},
    Inv s →
    execute_steps s wf_context wf_id execution_id step_tasks now steps =
      .ok (s2, acc) →
    Inv s2 := by
  intro steps
  induction steps with
  | nil =>
    intro s step_tasks s2 acc hs h
    simp only [execute_steps, Except.ok.injEq, Prod.mk.injEq] at h
    exact h.1 ▸ hs
  | cons step rest ih =>
    intro s step_tasks s2 acc hs h
    rw [execute_steps] at h
    split at h
    · exact absurd h (by simp)
    · rename_i tid s1 heq
      exact ih s1 _ (inv_submit hs heq) h

theorem inv_execute_workflow {s s1 : Orchestrator} (hs : Inv s) {wf_id : Nat}
    {context : Option Ctx} {now : Nat} {eid : String}
    (h : execute_workflow s wf_id context now = .ok (eid, s1)) : Inv s1 := by
  unfold execute_workflow at h
  split at h
  · exact absurd h (by simp)
  · rename_i wf hw
    dsimp only [] at h
    split at h
    · exact absurd h (by simp)
    · rename_i s2 acc hes
      simp only [Except.ok.injEq, Prod.mk.injEq] at h
      obtain ⟨-, rfl⟩ := h
      refine inv_execute_steps _ _ _ ?_ hes
      exact inv_of_fields_eq hs rfl rfl rfl rfl rfl rfl rfl rfl

theorem inv_exec_workflow_state {s : Orchestrator} (hs : Inv s) (wf_id : Nat)
    (context : Option Ctx) (now : Nat) :
    Inv (exec_workflow_state s wf_id context now) := by
  unfold exec_workflow_state
  cases h : execute_workflow s wf_id context now with
  | ok pr =>
    obtain ⟨eid, s1⟩ := pr
    exact inv_execute_workflow hs h
  | error e => exact hs

theorem reachable_inv {s : Orchestrator} (h : Reachable s) : Inv s := by
  induction h with
  | init task_timeout retry_delay => exact inv_initial task_timeout retry_delay
  | register s agent_id _ ih => exact inv_register ih agent_id
  | unregister s s1 agent_id _ heq ih => exact inv_unregister ih heq
  | submit s task_type agent_id context priority timeout max_retries
      dependencies metadata now _ ih =>
    exact inv_submit_state ih task_type agent_id context priority timeout
      max_retries dependencies metadata now
  | worker s now _ ih => exact inv_worker ih now
  | finish s tid outcome now _ ih => exact inv_finish ih tid outcome now
  | cancel s tid now _ ih => exact inv_cancel ih tid now
  | createWf s name description steps now _ ih =>
    exact inv_create_workflow ih name description steps now
  | execWf s wf_id context now _ ih =>
    exact inv_exec_workflow_state ih wf_id context now
  | pauseWf s wf_id _ ih => exact inv_pause_workflow ih wf_id
  | resumeWf s wf_id _ ih => exact inv_resume_workflow ih wf_id

/-- A fresh orchestrator (task timeout 300, retry delay 1) with a single
registered agent `"agent_a"`: the base state of the concrete scenarios
below. -/
def demo : Orchestrator := register_agent (Orchestrator.initial 300 1) "agent_a"

/-- C1: the claim says a HIGH task is dequeued before a NORMAL task and
that ties are broken by a monotonic sequence counter.  The code enqueues
`(priority.value, created_at, task)` with LOW=1 … CRITICAL=4 into
`asyncio.PriorityQueue`, a min-heap, so the smaller NORMAL value (2) is
popped before HIGH (3), and the tie-break field is the wall-clock
`created_at` timestamp.  This theorem exhibits the divergence: with a
HIGH task (id 0, submitted at time 0) and a NORMAL task (id 1, submitted
at time 1) — in either submission order — one worker iteration starts
the NORMAL task and leaves the HIGH task queued. -/
theorem claim_C1_min_heap_pops_normal_before_high :
    (let sHN := submit_state (submit_state demo "t" "agent_a" [] .high none
        none none none 0) "t" "agent_a" [] .normal none none none none 1
     let w := task_worker_step sHN 5
     sHN.task_queue = [(3, 0, 0), (2, 1, 1)] ∧
     (alist_find w.tasks 1).map Task.status = some .running ∧
     (alist_find w.tasks 0).map Task.status = some .pending ∧
     w.task_queue = [(3, 0, 0)]) ∧
    (let sNH := submit_state (submit_state demo "t" "agent_a" [] .normal none
        none none none 0) "t" "agent_a" [] .high none none none none 1
     let w2 := task_worker_step sNH 5
     (alist_find w2.tasks 0).map Task.status = some .running ∧
     (alist_find w2.tasks 1).map Task.status = some .pending) := by
  decide

/-- C2: the claim says a task cancelled while inside an agent call stays
CANCELLED and the agent call's eventual result is ignored.  In the code
`_handle_task_success` marks the task COMPLETED unconditionally, so when
the agent call of a cancelled task returns success the terminal CANCELLED
status is overwritten: after `cancel_task` (which returned `true` and
moved the task to `failed_tasks` with status CANCELLED), a successful
agent result flips the task to COMPLETED and stores it in
`completed_tasks` as well. -/
theorem claim_C2_cancelled_task_resurrected_as_completed :
    (let a1 := task_worker_step
      (submit_state demo "t" "agent_a" [] .normal none none none none 0) 1
     let c := cancel_task a1 0 2
     let fin := process_task_result c.2 0 (.result { success := true }) 3
     c.1 = true ∧
     (alist_find c.2.tasks 0).map Task.status = some .cancelled ∧
     0 ∈ c.2.failed_tasks ∧
     (alist_find fin.tasks 0).map Task.status = some .completed ∧
     0 ∈ fin.completed_tasks ∧ 0 ∈ fin.failed_tasks) := by
  decide

/-- C5 counterexample: the claim says `unregister(id)` for an id not in
the registry raises an error; on the empty registry the call returns
normally (no exception) with the state unchanged. -/
theorem claim_C5_counterexample_unregister_unknown_is_noop :
    unregister_agent (Orchestrator.initial 300 1) "ghost" =
      .ok (Orchestrator.initial 300 1) := by
  rfl

/-- C5 (amended): `unregister_agent` on an unknown id is a silent no-op
(returns without error, registry unchanged); no `NotRegisteredError`
exists in the code — the only unknown-agent-id failure surfaced is
`submit_task`'s `ValueError`. -/
theorem claim_C5_unregister_unknown_silent_noop (s : Orchestrator)
    (agent_id : String) (h : agent_id ∉ s.registered_agents) :
    unregister_agent s agent_id = .ok s ∧
    ∀ task_type context priority now,
      submit_task s task_type agent_id context priority none none none none
        now = .error ("Agente no registrado: " ++ agent_id) := by
  constructor
  · simp [unregister_agent, h]
  · intro task_type context priority now
    simp [submit_task, h]

/-- C5 witness. -/
theorem claim_C5_unregister_unknown_silent_noop_witness :
    unregister_agent (Orchestrator.initial 300 1) "ghost" =
      .ok (Orchestrator.initial 300 1) ∧
    submit_task (Orchestrator.initial 300 1) "t" "ghost" [] .normal none none
      none none 0 = .error "Agente no registrado: ghost" := by
  obtain ⟨h1, h2⟩ := claim_C5_unregister_unknown_silent_noop
    (Orchestrator.initial 300 1) "ghost" (by decide)
  exact ⟨h1, h2 "t" [] .normal 0⟩

/-- C6: submitting a task for an unregistered agent id raises
`ValueError("Agente no registrado: ...")` synchronously, before any task
is created, stored or enqueued; the orchestrator state is unchanged (the
`submit_state` wrapper returns the original state) and nothing about the
call is ever retried. -/
theorem claim_C6_submit_unregistered_agent_rejected (s : Orchestrator)
    (task_type agent_id : String) (context : Ctx) (priority : TaskPriority)
    (timeout max_retries : Option Nat) (dependencies : Option (List Nat))
    (metadata : Option Ctx) (now : Nat)
    (h : agent_id ∉ s.registered_agents) :
    submit_task s task_type agent_id context priority timeout max_retries
      dependencies metadata now =
        .error ("Agente no registrado: " ++ agent_id) ∧
    submit_state s task_type agent_id context priority timeout max_retries
      dependencies metadata now = s := by
  have he : submit_task s task_type agent_id context priority timeout
      max_retries dependencies metadata now =
        .error ("Agente no registrado: " ++ agent_id) := by
    simp [submit_task, h]
  refine ⟨he, ?_⟩
  simp [submit_state, he]

/-- C6 witness. -/
theorem claim_C6_submit_unregistered_agent_rejected_witness :
    submit_task demo "t" "ghost" [] .high none none none none 7 =
      .error "Agente no registrado: ghost" ∧
    submit_state demo "t" "ghost" [] .high none none none none 7 = demo := by
  exact claim_C6_submit_unregistered_agent_rejected demo "t" "ghost" [] .high
    none none none none 7 (by decide)

/-- C9: passing `max_retries = 0` (and `timeout = 0`) to `submit_task`
does not disable retries: the defaulting expressions `max_retries or 3`
and `timeout or self.task_timeout` treat `0` as absent, so the created
task carries `max_retries = 3` and the configured `task_timeout`. -/
theorem claim_C9_zero_max_retries_becomes_three (s : Orchestrator)
    (task_type agent_id : String) (context : Ctx) (priority : TaskPriority)
    (metadata : Option Ctx) (now : Nat)
    (h : agent_id ∈ s.registered_agents) :
    ∃ s1, submit_task s task_type agent_id context priority (some 0) (some 0)
        none metadata now = .ok (s.next_id, s1) ∧
      ∃ t, alist_find s1.tasks s.next_id = some t ∧
        t.max_retries = 3 ∧ t.timeout = s.task_timeout := by
  have hval : validate_task_dependencies s
      ((built_task s task_type agent_id context priority (some 0) (some 0)
        none metadata now).dependencies) := by
    intro d hd
    simp [built_task] at hd
  refine ⟨{ s with
      task_queue := s.task_queue ++ [(priority.value, now, s.next_id)]
      tasks := alist_set s.tasks s.next_id (built_task s task_type agent_id
        context priority (some 0) (some 0) none metadata now)
      pending_tasks_by_id := insert_key s.pending_tasks_by_id s.next_id
      next_id := s.next_id + 1 }, ?_, ?_⟩
  · simp only [submit_task, if_pos h, if_pos hval]
    rfl
  · exact ⟨_, alist_find_set_self _ _ _, rfl, rfl⟩

/-- An agent-call outcome the worker treats as a failure: an
`AgentResult` with `success = False`, or a raise (exception / timeout). -/
def failing : ExecOutcome → Prop
  | .result r => r.success = false
  | .failure _ => True

set_option maxHeartbeats 2000000 in
/-- C4: a task submitted with `max_retries = 2` whose agent call fails
on every attempt — by unsuccessful result, exception or timeout, in any
combination — is executed exactly 3 times (1 initial attempt + 2
retries).  After each of the two non-final failures the task is PENDING
again with `started_at` cleared, `retry_count` incremented, and exactly
its own entry back in the queue; after the third failure it is FAILED
with `retry_count = 3`, it is in `failed_tasks`, and the queue and
pending map are empty, so no further attempt can happen. -/
theorem claim_C4_max_retries_two_gives_three_attempts
    (o1 o2 o3 : ExecOutcome)
    (h1 : failing o1) (h2 : failing o2) (h3 : failing o3) :
    (let s0 := submit_state demo "t" "agent_a" [] .normal none (some 2) none
      none 0
     let f1 := process_task_result (task_worker_step s0 1) 0 o1 2
     let f2 := process_task_result (task_worker_step f1 3) 0 o2 4
     let f3 := process_task_result (task_worker_step f2 5) 0 o3 6
     ((alist_find f1.tasks 0).map
        (fun t => (t.status, t.retry_count, t.started_at)) =
          some (.pending, 1, none) ∧
      f1.pending_tasks_by_id = [0] ∧
      f1.task_queue.map QEntry.tid = [0]) ∧
     ((alist_find f2.tasks 0).map
        (fun t => (t.status, t.retry_count, t.started_at)) =
          some (.pending, 2, none) ∧
      f2.pending_tasks_by_id = [0] ∧
      f2.task_queue.map QEntry.tid = [0]) ∧
     ((alist_find f3.tasks 0).map (fun t => (t.status, t.retry_count)) =
        some (.failed, 3) ∧
      f3.task_queue = [] ∧ f3.pending_tasks_by_id = [] ∧
      f3.failed_tasks = [0])) := by
  rcases o1 with ⟨⟨s1, d1, e1⟩⟩ | m1 <;>
  rcases o2 with ⟨⟨s2, d2, e2⟩⟩ | m2 <;>
  rcases o3 with ⟨⟨s3, d3, e3⟩⟩ | m3 <;>
    simp only [failing] at h1 h2 h3 <;>
    (try subst h1) <;> (try subst h2) <;> (try subst h3) <;>
    exact ⟨⟨rfl, rfl, rfl⟩, ⟨rfl, rfl, rfl⟩, ⟨rfl, rfl, rfl, rfl⟩⟩

/-- C4 witness: one concrete failing outcome of each kind (unsuccessful
result, timeout, exception). -/
theorem claim_C4_max_retries_two_gives_three_attempts_witness :
    failing (.result { success := false, error := some "agent error" }) ∧
    failing (.failure "Timeout (300s) ejecutando tarea 0") ∧
    failing (.failure "Excepcion ejecutando tarea 0") ∧
    (let s0 := submit_state demo "t" "agent_a" [] .normal none (some 2) none
      none 0
     let f1 := process_task_result (task_worker_step s0 1) 0
      (.result { success := false, error := some "agent error" }) 2
     let f2 := process_task_result (task_worker_step f1 3) 0
      (.failure "Timeout (300s) ejecutando tarea 0") 4
     let f3 := process_task_result (task_worker_step f2 5) 0
      (.failure "Excepcion ejecutando tarea 0") 6
     ((alist_find f1.tasks 0).map
        (fun t => (t.status, t.retry_count, t.started_at)) =
          some (.pending, 1, none) ∧
      f1.pending_tasks_by_id = [0] ∧
      f1.task_queue.map QEntry.tid = [0]) ∧
     ((alist_find f2.tasks 0).map
        (fun t => (t.status, t.retry_count, t.started_at)) =
          some (.pending, 2, none) ∧
      f2.pending_tasks_by_id = [0] ∧
      f2.task_queue.map QEntry.tid = [0]) ∧
     ((alist_find f3.tasks 0).map (fun t => (t.status, t.retry_count)) =
        some (.failed, 3) ∧
      f3.task_queue = [] ∧ f3.pending_tasks_by_id = [] ∧
      f3.failed_tasks = [0])) :=
  ⟨rfl, trivial, trivial,
    claim_C4_max_retries_two_gives_three_attempts
      (.result { success := false, error := some "agent error" })
      (.failure "Timeout (300s) ejecutando tarea 0")
      (.failure "Excepcion ejecutando tarea 0") rfl trivial trivial⟩

/-- C9 witness. -/
theorem claim_C9_zero_max_retries_becomes_three_witness :
    ∃ s1, submit_task demo "t" "agent_a" [] .normal (some 0) (some 0)
        none none 0 = .ok (demo.next_id, s1) ∧
      ∃ t, alist_find s1.tasks demo.next_id = some t ∧
        t.max_retries = 3 ∧ t.timeout = demo.task_timeout :=
  claim_C9_zero_max_retries_becomes_three demo "t" "agent_a" [] .normal none 0
    (by decide)

theorem demo_reachable : Reachable demo :=
  Reachable.register _ "agent_a" (Reachable.init 300 1)

/-- Concrete run: tasks `a` (id 0) and `b` (id 1) are submitted and
completed, task `c` (id 2, depending on [0, 1]) is submitted and then
started by the third worker iteration. -/
def c3_run : Orchestrator :=
  task_worker_step (process_task_result (task_worker_step (process_task_result
    (task_worker_step (submit_state (submit_state (submit_state demo
      "a" "agent_a" [] .normal none none none none 0)
      "b" "agent_a" [] .normal none none none none 1)
      "c" "agent_a" [] .normal none none (some [0, 1]) none 2) 10)
    0 (.result { success := true }) 11) 12)
    1 (.result { success := true }) 13) 14

theorem c3_run_reachable : Reachable c3_run :=
  Reachable.worker _ 14
    (Reachable.finish _ 1 (.result { success := true }) 13
      (Reachable.worker _ 12
        (Reachable.finish _ 0 (.result { success := true }) 11
          (Reachable.worker _ 10
            (Reachable.submit _ "c" "agent_a" [] .normal none none
              (some [0, 1]) none 2
              (Reachable.submit _ "b" "agent_a" [] .normal none none none
                none 1
                (Reachable.submit _ "a" "agent_a" [] .normal none none none
                  none 0 demo_reachable)))))))

/-- Concrete state with a NORMAL task `a` (id 0, no dependencies) and a
LOW task `b` (id 1, depending on task 0); the min-heap pops the LOW
entry first, whose dependency is not completed. -/
def c3_blocked : Orchestrator :=
  submit_state (submit_state demo "a" "agent_a" [] .normal none none none
    none 0) "b" "agent_a" [] .low none none (some [0]) none 1

/-- C3: dependency gating.  First conjunct: in every reachable state,
a task with dependency list `[a, b]` has status RUNNING only if both
`a` and `b` are in `completed_tasks` — and membership in
`completed_tasks` is granted exactly when `_handle_task_success` marks a
task COMPLETED (the two writes are adjacent, with no suspension point
between them), so the task left PENDING only after both dependencies had
reached status COMPLETED.  Second conjunct: a popped task that is not
cancelled and whose dependencies are not all completed is re-enqueued
under its original key and put back in `pending_tasks_by_id`, leaving
every other component of the state (in particular the task's status and
the running/executing sets) unchanged, rather than being executed. -/
theorem claim_C3_dependency_gating :
    (∀ s, Reachable s → ∀ k t a b, alist_find s.tasks k = some t →
      t.dependencies = [a, b] → t.status = .running →
      a ∈ s.completed_tasks ∧ b ∈ s.completed_tasks) ∧
    (∀ (s : Orchestrator) (now p c tid : Nat) (rest : List QEntry) (t : Task),
      queue_pop s.task_queue = some ((p, c, tid), rest) →
      alist_find s.tasks tid = some t → t.status ≠ .cancelled →
      ¬ (∀ d ∈ t.dependencies, d ∈ s.completed_tasks) →
      task_worker_step s now =
        { s with
          task_queue := rest ++ [(p, c, tid)]
          pending_tasks_by_id :=
            insert_key (erase_key s.pending_tasks_by_id tid) tid }) := by
  constructor
  · intro s hr k t a b hf hdeps hst
    have hd := (reachable_inv hr).dep_inv k t hf (Or.inl hst)
    rw [hdeps] at hd
    exact ⟨hd a (by simp), hd b (by simp)⟩
  · intro s now p c tid rest t hq hf hcanc hdep
    rw [task_worker_step_eq now hq hf, if_neg hcanc, if_neg hdep]

/-- C3 witness: in `c3_run` the dependent task 2 is RUNNING and its two
dependencies are completed; in `c3_blocked` the popped dependency-blocked
task 1 is re-enqueued. -/
theorem claim_C3_dependency_gating_witness :
    ((0 : Nat) ∈ c3_run.completed_tasks ∧ (1 : Nat) ∈ c3_run.completed_tasks) ∧
    (task_worker_step c3_blocked 5 =
      { c3_blocked with
        task_queue := [(2, 0, 0)] ++ [(1, 1, 1)]
        pending_tasks_by_id :=
          insert_key (erase_key c3_blocked.pending_tasks_by_id 1) 1 }) :=
  ⟨claim_C3_dependency_gating.1 c3_run c3_run_reachable 2
    { task_id := 2, task_type := "c", agent_id := "agent_a", context := [],
      priority := .normal, status := .running, created_at := 2,
      started_at := some 14, dependencies := [0, 1] }
    0 1 (by decide) rfl rfl,
   claim_C3_dependency_gating.2 c3_blocked 5 1 1 1 [(2, 0, 0)]
    { task_id := 1, task_type := "b", agent_id := "agent_a", context := [],
      priority := .low, status := .pending, created_at := 1,
      dependencies := [0] }
    (by decide) (by decide) (by decide) (by decide)⟩

/-- C7: in every reachable state, every task whose status is not FAILED
satisfies `retry_count ≤ max_retries`: the retry counter can pass the
bound only in the very step that marks the task FAILED. -/
theorem claim_C7_retry_count_bounded (s : Orchestrator) (h : Reachable s)
    (k : Nat) (t : Task) (hf : alist_find s.tasks k = some t)
    (hst : t.status ≠ .failed) : t.retry_count ≤ t.max_retries :=
  (reachable_inv h).retry_inv k t hf hst

/-- Concrete state of a task with `max_retries = 2` after its first
failed attempt: PENDING again with `retry_count = 1`. -/
def c7_retried : Orchestrator :=
  process_task_result (task_worker_step
    (submit_state demo "t" "agent_a" [] .normal none (some 2) none none 0) 1)
    0 (.failure "boom") 2

theorem c7_retried_reachable : Reachable c7_retried :=
  Reachable.finish _ 0 (.failure "boom") 2
    (Reachable.worker _ 1
      (Reachable.submit _ "t" "agent_a" [] .normal none (some 2) none none 0
        demo_reachable))

/-- C7 witness: the once-retried task of `c7_retried` (PENDING,
`retry_count = 1`, `max_retries = 2`). -/
theorem claim_C7_retry_count_bounded_witness :
    ({ task_id := 0, task_type := "t", agent_id := "agent_a", context := [],
       priority := .normal, status := .pending, created_at := 0,
       error := some "boom", retry_count := 1, max_retries := 2 } :
      Task).retry_count ≤
    ({ task_id := 0, task_type := "t", agent_id := "agent_a", context := [],
       priority := .normal, status := .pending, created_at := 0,
       error := some "boom", retry_count := 1, max_retries := 2 } :
      Task).max_retries :=
  claim_C7_retry_count_bounded c7_retried c7_retried_reachable 0
    { task_id := 0, task_type := "t", agent_id := "agent_a", context := [],
      priority := .normal, status := .pending, created_at := 0,
      error := some "boom", retry_count := 1, max_retries := 2 }
    (by decide) (by decide)

/-- C10: a task that has been submitted but not yet started by any
worker is invisible to `get_task_status`.  First conjunct: a successful
`submit_task` places the fresh task in `pending_tasks_by_id` with
`retry_count = 0`.  Second conjunct: in every reachable state, every
task in `pending_tasks_by_id` whose `retry_count` is `0` — for a member
of the pending map, `retry_count = 0` holds exactly when no worker has
yet executed it, since every completed execution attempt either
increments `retry_count` (failure path) or leaves the pending map for
good (success) — satisfies `get_task_status = None`: the lookup consults
only `running_tasks`, `completed_tasks` and `failed_tasks`, and such a
task is in none of them.  So a caller cannot observe the task's
existence anywhere between submission and its first execution, no
matter what other operations run in between. -/
theorem claim_C10_pending_task_invisible :
    (∀ (s s1 : Orchestrator) (task_type agent_id : String) (context : Ctx)
       (priority : TaskPriority) (timeout max_retries : Option Nat)
       (dependencies : Option (List Nat)) (metadata : Option Ctx)
       (now tid : Nat),
      submit_task s task_type agent_id context priority timeout max_retries
        dependencies metadata now = .ok (tid, s1) →
      tid ∈ s1.pending_tasks_by_id ∧
        ∃ t, alist_find s1.tasks tid = some t ∧ t.retry_count = 0) ∧
    (∀ s, Reachable s → ∀ tid t, tid ∈ s.pending_tasks_by_id →
      alist_find s.tasks tid = some t → t.retry_count = 0 →
      get_task_status s tid = none) := by
  constructor
  · intro s s1 task_type agent_id context priority timeout max_retries
      dependencies metadata now tid hsub
    obtain ⟨rfl, hreg, hval, rfl⟩ := submit_ok hsub
    exact ⟨mem_insert_key.mpr (Or.inl rfl), _,
      alist_find_set_self _ _ _, rfl⟩
  · intro s hr tid t hp hf hrc
    have hinv := reachable_inv hr
    obtain ⟨t3, ht3, hst3⟩ := hinv.pending_status tid hp
    rw [hf] at ht3
    cases ht3
    have hnr : tid ∉ s.running_tasks := by
      intro hm
      obtain ⟨t2, ht2, hst2⟩ := hinv.running_status tid hm
      rw [hf] at ht2
      cases ht2
      rw [hst3] at hst2
      exact nomatch hst2
    have hnc : tid ∉ s.completed_tasks := by
      intro hm
      obtain ⟨t2, ht2, hst2⟩ := hinv.completed_status tid hm
      rw [hf] at ht2
      cases ht2
      rw [hst3] at hst2
      exact nomatch hst2
    have hnf : tid ∉ s.failed_tasks := by
      intro hm
      have hge := hinv.pending_failed_rc tid hp hm t hf
      omega
    simp [get_task_status, hnr, hnc, hnf]

/-- The state produced by submitting one NORMAL task to `demo`. -/
def c10_state : Orchestrator :=
  { registered_agents := ["agent_a"]
    task_queue := [(2, 0, 0)]
    tasks := [(0, { task_id := 0, task_type := "t", agent_id := "agent_a",
                    context := [], priority := .normal, status := .pending,
                    created_at := 0 })]
    pending_tasks_by_id := [0]
    running_tasks := []
    completed_tasks := []
    failed_tasks := []
    executing := []
    workflows := []
    next_id := 1
    task_timeout := 300
    retry_delay := 1 }

/-- A later reachable state: after task 0 was submitted, a second task
(id 1) was submitted and a worker iteration started task 0; task 1 is
still pending and unstarted. -/
def c10_later : Orchestrator :=
  task_worker_step (submit_state (submit_state demo
    "t" "agent_a" [] .normal none none none none 0)
    "u" "agent_a" [] .normal none none none none 1) 5

theorem c10_later_reachable : Reachable c10_later :=
  Reachable.worker _ 5
    (Reachable.submit _ "u" "agent_a" [] .normal none none none none 1
      (Reachable.submit _ "t" "agent_a" [] .normal none none none none 0
        demo_reachable))

/-- C10 witness: the freshly submitted task 0 of `c10_state` is pending
with `retry_count = 0`, and in `c10_later` — several operations past its
submission — the still-pending task 1 is invisible. -/
theorem claim_C10_pending_task_invisible_witness :
    ((0 : Nat) ∈ c10_state.pending_tasks_by_id ∧
      ∃ t, alist_find c10_state.tasks 0 = some t ∧ t.retry_count = 0) ∧
    get_task_status c10_later 1 = none :=
  ⟨claim_C10_pending_task_invisible.1 demo c10_state "t" "agent_a" [] .normal
      none none none none 0 0 rfl,
   claim_C10_pending_task_invisible.2 c10_later c10_later_reachable 1
      { task_id := 1, task_type := "u", agent_id := "agent_a", context := [],
        priority := .normal, status := .pending, created_at := 1 }
      (by decide) (by decide) rfl⟩

theorem submit_task_ok_eq {s : Orchestrator} {task_type agent_id : String}
    {context : Ctx} {priority : TaskPriority} {timeout max_retries : Option Nat}
    {dependencies : Option (List Nat)} {metadata : Option Ctx} {now : Nat}
    (h : agent_id ∈ s.registered_agents)
    (hval : validate_task_dependencies s (dependencies.getD [])) :
    submit_task s task_type agent_id context priority timeout max_retries
      dependencies metadata now =
    .ok (s.next_id, { s with
      task_queue := s.task_queue ++ [(priority.value, now, s.next_id)]
      tasks := alist_set s.tasks s.next_id (built_task s task_type agent_id
        context priority timeout max_retries dependencies metadata now)
      pending_tasks_by_id := insert_key s.pending_tasks_by_id s.next_id
      next_id := s.next_id + 1 }) := by
  have hval2 : validate_task_dependencies s
      ((built_task s task_type agent_id context priority timeout max_retries
        dependencies metadata now).dependencies) := hval
  simp only [submit_task, if_pos h, if_pos hval2]
  rfl

theorem execute_steps_cons (step : WorkflowStep) (rest : List WorkflowStep)
    (step_tasks : List (String × Nat)) {s s1 : Orchestrator}
    {wf_context : Ctx} {wf_id : Nat} {execution_id : String} {now tid : Nat}
    (hsub : submit_task s step.task_type step.agent_id
      (ctx_merge wf_context step.context) .normal none none
      (some (step.dependencies.filterMap (fun d => alist_find step_tasks d)))
      (some [("workflow_id", toString wf_id),
             ("execution_id", execution_id),
             ("step_id", step.step_id)]) now = .ok (tid, s1)) :
    execute_steps s wf_context wf_id execution_id step_tasks now
      (step :: rest) =
    execute_steps s1 wf_context wf_id execution_id
      (step_tasks ++ [(step.step_id, tid)]) now rest := by
  simp only [execute_steps]
  rw [hsub]

/-- C8: `execute_workflow` on a workflow whose steps are
`[A, B (dep: A), C (dep: A, B)]`, all targeting registered agents,
submits exactly 3 concrete tasks (the id counter advances by 3 and the
queue gains exactly the 3 new entries recorded in the returned state),
where A's task has no dependencies, B's task's dependency list is
exactly the generated task id of A, and C's task's dependency list is
exactly the generated task ids of A and B, in declaration order. -/
theorem claim_C8_workflow_dependency_translation (s : Orchestrator)
    (wf_id : Nat) (wf : Workflow) (context : Option Ctx) (now : Nat)
    (a1 a2 a3 t1 t2 t3 : String) (c1 c2 c3 : Ctx)
    (hw : alist_find s.workflows wf_id = some wf)
    (hsteps : wf.steps = [
      { step_id := "A", agent_id := a1, task_type := t1, context := c1,
        dependencies := [] },
      { step_id := "B", agent_id := a2, task_type := t2, context := c2,
        dependencies := ["A"] },
      { step_id := "C", agent_id := a3, task_type := t3, context := c3,
        dependencies := ["A", "B"] }])
    (ha1 : a1 ∈ s.registered_agents) (ha2 : a2 ∈ s.registered_agents)
    (ha3 : a3 ∈ s.registered_agents) :
    ∃ s3, execute_workflow s wf_id context now =
        .ok (toString wf_id ++ "_" ++ toString now, s3) ∧
      s3.next_id = s.next_id + 3 ∧
      (alist_find s3.tasks s.next_id).map Task.dependencies = some [] ∧
      (alist_find s3.tasks (s.next_id + 1)).map Task.dependencies =
        some [s.next_id] ∧
      (alist_find s3.tasks (s.next_id + 2)).map Task.dependencies =
        some [s.next_id, s.next_id + 1] := by
  set n := s.next_id with hn
  set ctx0 := context.getD [] with hctx0
  set eid := toString wf_id ++ "_" ++ toString now with heid
  set stA : WorkflowStep :=
    { step_id := "A", agent_id := a1, task_type := t1, context := c1,
      dependencies := [] } with hstA
  set stB : WorkflowStep :=
    { step_id := "B", agent_id := a2, task_type := t2, context := c2,
      dependencies := ["A"] } with hstB
  set stC : WorkflowStep :=
    { step_id := "C", agent_id := a3, task_type := t3, context := c3,
      dependencies := ["A", "B"] } with hstC
  set wf1 : Workflow :=
    { wf with
      status := .running
      started_at := some now
      context := ctx0 } with hwf1
  set S1 : Orchestrator :=
    { s with workflows := alist_set s.workflows wf_id wf1 } with hS1
  set btA : Task :=
    { task_id := n, task_type := t1, agent_id := a1,
      context := ctx_merge ctx0 c1, priority := .normal, status := .pending,
      created_at := now, timeout := s.task_timeout, max_retries := 3,
      dependencies := [],
      metadata := [("workflow_id", toString wf_id), ("execution_id", eid),
        ("step_id", "A")] } with hbtA
  set btB : Task :=
    { task_id := n + 1, task_type := t2, agent_id := a2,
      context := ctx_merge ctx0 c2, priority := .normal, status := .pending,
      created_at := now, timeout := s.task_timeout, max_retries := 3,
      dependencies := [n],
      metadata := [("workflow_id", toString wf_id), ("execution_id", eid),
        ("step_id", "B")] } with hbtB
  set btC : Task :=
    { task_id := n + 2, task_type := t3, agent_id := a3,
      context := ctx_merge ctx0 c3, priority := .normal, status := .pending,
      created_at := now, timeout := s.task_timeout, max_retries := 3,
      dependencies := [n, n + 1],
      metadata := [("workflow_id", toString wf_id), ("execution_id", eid),
        ("step_id", "C")] } with hbtC
  set S2 : Orchestrator :=
    { s with
      workflows := alist_set s.workflows wf_id wf1
      task_queue := s.task_queue ++ [(2, now, n)]
      tasks := alist_set s.tasks n btA
      pending_tasks_by_id := insert_key s.pending_tasks_by_id n
      next_id := n + 1 } with hS2
  set S3 : Orchestrator :=
    { s with
      workflows := alist_set s.workflows wf_id wf1
      task_queue := (s.task_queue ++ [(2, now, n)]) ++ [(2, now, n + 1)]
      tasks := alist_set (alist_set s.tasks n btA) (n + 1) btB
      pending_tasks_by_id := insert_key (insert_key s.pending_tasks_by_id n)
        (n + 1)
      next_id := n + 2 } with hS3
  set S4 : Orchestrator :=
    { s with
      workflows := alist_set s.workflows wf_id wf1
      task_queue := ((s.task_queue ++ [(2, now, n)]) ++ [(2, now, n + 1)]) ++
        [(2, now, n + 2)]
      tasks := alist_set (alist_set (alist_set s.tasks n btA) (n + 1) btB)
        (n + 2) btC
      pending_tasks_by_id := insert_key (insert_key
        (insert_key s.pending_tasks_by_id n) (n + 1)) (n + 2)
      next_id := n + 3 } with hS4
  have ha1s : a1 ∈ S1.registered_agents := ha1
  have ha2s : a2 ∈ S2.registered_agents := ha2
  have ha3s : a3 ∈ S3.registered_agents := ha3
  have hvalA : validate_task_dependencies S1
      ((some ([] : List Nat)).getD []) := by
    intro d hd
    exact absurd hd (List.not_mem_nil d)
  have hvalB : validate_task_dependencies S2 ((some [n]).getD []) := by
    intro d hd
    have hd2 : d = n := List.mem_singleton.mp hd
    subst hd2
    exact Or.inr (Or.inr (mem_insert_key.mpr (Or.inl rfl)))
  have hvalC : validate_task_dependencies S3
      ((some [n, n + 1]).getD []) := by
    intro d hd
    rcases List.mem_cons.mp hd with rfl | hd2
    · exact Or.inr (Or.inr (mem_insert_key.mpr (Or.inr
        (mem_insert_key.mpr (Or.inl rfl)))))
    · have hd3 : d = n + 1 := List.mem_singleton.mp hd2
      subst hd3
      exact Or.inr (Or.inr (mem_insert_key.mpr (Or.inl rfl)))
  have hsubA : submit_task S1 t1 a1 (ctx_merge ctx0 c1) .normal none none
      (some []) (some [("workflow_id", toString wf_id),
        ("execution_id", eid), ("step_id", "A")]) now = .ok (n, S2) :=
    submit_task_ok_eq ha1s hvalA
  have hsubB : submit_task S2 t2 a2 (ctx_merge ctx0 c2) .normal none none
      (some [n]) (some [("workflow_id", toString wf_id),
        ("execution_id", eid), ("step_id", "B")]) now = .ok (n + 1, S3) :=
    submit_task_ok_eq ha2s hvalB
  have hsubC : submit_task S3 t3 a3 (ctx_merge ctx0 c3) .normal none none
      (some [n, n + 1]) (some [("workflow_id", toString wf_id),
        ("execution_id", eid), ("step_id", "C")]) now = .ok (n + 2, S4) :=
    submit_task_ok_eq ha3s hvalC
  have hch : execute_steps S1 ctx0 wf_id eid [] now [stA, stB, stC] =
      .ok (S4, [("A", n), ("B", n + 1), ("C", n + 2)]) := by
    rw [execute_steps_cons stA [stB, stC] [] hsubA]
    rw [execute_steps_cons stB [stC] ([] ++ [(stA.step_id, n)]) hsubB]
    rw [execute_steps_cons stC []
      (([] ++ [(stA.step_id, n)]) ++ [(stB.step_id, n + 1)]) hsubC]
    simp only [execute_steps]
    rfl
  have hsteps2 : wf.steps = [stA, stB, stC] := hsteps
  have hred : execute_workflow s wf_id context now =
      (match execute_steps S1 ctx0 wf_id eid [] now wf.steps with
       | .error e => .error e
       | .ok (s2, _) => .ok (eid, s2)) := by
    simp only [execute_workflow, hw]
  refine ⟨S4, ?_, ?_, ?_, ?_, ?_⟩
  · rw [hred, hsteps2, hch]
  · rfl
  · have hfind : alist_find S4.tasks n = some btA := by
      show alist_find (alist_set (alist_set (alist_set s.tasks n btA) (n + 1)
        btB) (n + 2) btC) n = some btA
      rw [alist_find_set_ne _ _ (by omega : n ≠ n + 2),
        alist_find_set_ne _ _ (by omega : n ≠ n + 1), alist_find_set_self]
    rw [hfind]
    rfl
  · have hfind : alist_find S4.tasks (n + 1) = some btB := by
      show alist_find (alist_set (alist_set (alist_set s.tasks n btA) (n + 1)
        btB) (n + 2) btC) (n + 1) = some btB
      rw [alist_find_set_ne _ _ (by omega : n + 1 ≠ n + 2),
        alist_find_set_self]
    rw [hfind]
    rfl
  · have hfind : alist_find S4.tasks (n + 2) = some btC := by
      show alist_find (alist_set (alist_set (alist_set s.tasks n btA) (n + 1)
        btB) (n + 2) btC) (n + 2) = some btC
      rw [alist_find_set_self]
    rw [hfind]
    rfl

/-- Concrete state holding workflow 0 with steps
`[A, B (dep: A), C (dep: A, B)]`. -/
def c8_wf : Orchestrator :=
  (create_workflow demo "wf" "d"
    [ { step_id := "A", agent_id := "agent_a", task_type := "ta",
        context := [], dependencies := [] },
      { step_id := "B", agent_id := "agent_a", task_type := "tb",
        context := [], dependencies := ["A"] },
      { step_id := "C", agent_id := "agent_a", task_type := "tc",
        context := [], dependencies := ["A", "B"] } ] 0).2

/-- C8 witness. -/
theorem claim_C8_workflow_dependency_translation_witness :
    ∃ s3, execute_workflow c8_wf 0 none 7 =
        .ok (toString (0 : Nat) ++ "_" ++ toString (7 : Nat), s3) ∧
      s3.next_id = c8_wf.next_id + 3 ∧
      (alist_find s3.tasks c8_wf.next_id).map Task.dependencies = some [] ∧
      (alist_find s3.tasks (c8_wf.next_id + 1)).map Task.dependencies =
        some [c8_wf.next_id] ∧
      (alist_find s3.tasks (c8_wf.next_id + 2)).map Task.dependencies =
        some [c8_wf.next_id, c8_wf.next_id + 1] :=
  claim_C8_workflow_dependency_translation c8_wf 0
    { workflow_id := 0, name := "wf", description := "d",
      steps := [ { step_id := "A", agent_id := "agent_a", task_type := "ta",
                   context := [], dependencies := [] },
                 { step_id := "B", agent_id := "agent_a", task_type := "tb",
                   context := [], dependencies := ["A"] },
                 { step_id := "C", agent_id := "agent_a", task_type := "tc",
                   context := [], dependencies := ["A", "B"] } ],
      created_at := 0 }
    none 7 "agent_a" "agent_a" "agent_a" "ta" "tb" "tc" [] [] []
    (by decide) rfl (by decide) (by decide) (by decide)

end VisionWagon
